import Mathlib

/-!
Verification of the spot-init process supervisor (src/main.rs, src/process.rs).

The program is a small init-style supervisor: it spawns one child process per
entry of a configuration table, installs a handler for the termination-class
signals (SIGTERM, SIGINT, SIGQUIT), and runs an exit-coordinator loop that
consumes one message per child exit from a shared zero-capacity channel,
decrementing the global counter CHILD_PROCESS_COUNT.  When the counter hits
zero the loop breaks and the process exits; otherwise, if the global flag
IS_SIGNALED is still false, the loop sends SIGTERM on the shared signal
channel.  Only when the supervisor runs as pid 1 is a forwarder thread
spawned; it receives a single message from the signal channel and then calls
Process::send_signal on every child once, after which it terminates and drops
its receiver.  Each child owns two threads: a relay loop, which selects over
the child's signal channel and a local-exit channel, forwarding received
signals to the child's pid with kill(2) and breaking on the local-exit
notice, and an exit watcher which, when the child process terminates, stores
false into the shared is_alive flag, then sends the exit notification on the
shared exit channel, and last sends the local-exit notice.
Process::send_signal checks is_alive and is a no-op when it is false.

We model this as a small-step transition system.  Every thread of the Rust
program is a program counter in the state; every zero-capacity crossbeam
channel is a rendezvous: a send and the matching receive complete together in
one step, and a send whose receiving end has been dropped fails (the Rust
code calls .expect on it, so the sending thread panics).  In the non-pid1
configuration the signal channel's receiver is owned by the blocked main
thread for the whole run and is never read, so a send on it neither completes
nor fails; accordingly the model has no transition out of that send.  The
receiver of the exit channel is dropped only when the coordinator loop ends,
and the main thread keeps a sender alive for the whole run, so a blocked
coordinator receive never fails either.  Atomic loads and stores are single
steps.  The state also carries history fields used only to phrase claims:
the log of completed signal deliveries to children, the first OS-delivered
signal, whether a cascade was initiated, and how many exit notifications the
coordinator has consumed.
-/

set_option maxHeartbeats 1000000

namespace SpotInit

/-- OS signal numbers, as `type Signal = i32` in the source. -/
abbrev Signal := Int

/-- signal_hook::SIGTERM. -/
def SIGTERM : Signal := 15

/-- signal_hook::SIGINT. -/
def SIGINT : Signal := 2

/-- signal_hook::SIGQUIT. -/
def SIGQUIT : Signal := 3

/-- Program counter of a child's exit-watcher thread (the second
`thread::spawn` in `Process::new`).  `waitChild` is blocked in
`child.wait()`; `setDead` is about to run `is_alive.store(false)`;
`sendExit` is the blocking `exit_tx.send(())`; `sendLocalExit` is the
blocking `local_exit_tx.send(())`; `panicked` is the thread after a failed
`exit_tx.send` (receiver dropped). -/
inductive WatcherPC
  | waitChild
  | setDead
  | sendExit
  | sendLocalExit
  | done
  | panicked
  deriving DecidableEq

/-- Program counter of a child's signal-relay loop (the first
`thread::spawn` in `Process::new`): either inside `select.ready()` /
the try_recv pair, or terminated after taking the local-exit notice. -/
inductive RelayPC
  | wait
  | done
  deriving DecidableEq

/-- Program counter of the exit-coordinator loop (the thread joined by main).
`waitExit` is the blocking `exit_rx.recv()`; `decide` is the point after a
received message, about to run `fetch_sub` and branch; `sendCascade` is the
blocking `signal_tx_clone.send(SIGTERM)`; `done` is after `break` and
`println!("done")`; `panicked` is the thread after the cascade send returned
an error (all receivers of the signal channel dropped). -/
inductive CoordPC
  | waitExit
  | decide
  | sendCascade
  | done
  | panicked
  deriving DecidableEq

/-- Program counter of the pid1-only forwarder thread (spawned in the
`if is_pid1` block of `main`).  `waitSig` is the blocking `signal_rx.recv()`;
`deliver i sg` is about to call `send_signal(sg)` on the i-th process of the
vector; `sendChild i sg` is blocked inside that call's `signal_tx.send(sg)`
after having read `is_alive == true`; `done` is the thread finished (its
`signal_rx` dropped); `panicked` is the thread after a failed send to a
child whose relay loop had already ended. -/
inductive FwdPC
  | waitSig
  | deliver (i : Nat) (sg : Signal)
  | sendChild (i : Nat) (sg : Signal)
  | done
  | panicked
  deriving DecidableEq

/-- Program counter of the OS-signal handler thread installed by
`register_sig_handler`.  `wait` is blocked in `signals.forever()`;
`store sg` has received signal `sg` and is about to run
`IS_SIGNALED.store(true)`; `sendSig sg` is the blocking
`signal_tx.send(sg)` performed only when pid1; `panicked` is the thread
after that send returned an error. -/
inductive HandlerPC
  | wait
  | store (sg : Signal)
  | sendSig (sg : Signal)
  | panicked
  deriving DecidableEq

/-- One supervised child: the shared `is_alive` flag, whether its underlying
OS process is still running, the two thread program counters, and history
booleans recording whether its exit notification (resp. local-exit notice)
has been sent. -/
structure Child where
  alive : Bool
  procRunning : Bool
  watcher : WatcherPC
  relay : RelayPC
  exitSent : Bool
  localSent : Bool
  deriving DecidableEq

/-- Global state of the supervisor run.  `count` is CHILD_PROCESS_COUNT
after startup, `signaled` is IS_SIGNALED, `delivers` logs each completed
delivery of a signal into a child's signal channel (the relay's kill),
`fwdGot` is the one signal the forwarder consumed from the signal channel,
`osFirst` is the first OS-delivered termination-class signal, `cascadeFired`
records that the coordinator initiated at least one cascade, `consumed`
counts the exit notifications received by the coordinator, and `exited`
is set when the main thread returns and the OS process ends. -/
structure State where
  isPid1 : Bool
  count : Nat
  signaled : Bool
  coord : CoordPC
  fwd : Option FwdPC
  handler : HandlerPC
  children : List Child
  delivers : List (Nat × Signal)
  fwdGot : Option Signal
  osFirst : Option Signal
  cascadeFired : Bool
  consumed : Nat
  exited : Bool
  deriving DecidableEq

/-- A freshly spawned child: alive, process running, watcher blocked in
`child.wait()`, relay loop selecting, nothing sent yet. -/
def initChild : Child :=
  { alive := true, procRunning := true, watcher := .waitChild, relay := .wait,
    exitSent := false, localSent := false }

/-- State right after `main`'s setup with `n` configured processes:
CHILD_PROCESS_COUNT equals `n` (one `fetch_add` per spawned child),
IS_SIGNALED is false, the coordinator is at `exit_rx.recv()`, the forwarder
thread exists (waiting on `signal_rx.recv()`) exactly when pid1. -/
def init (n : Nat) (p : Bool) : State :=
  { isPid1 := p, count := n, signaled := false, coord := .waitExit,
    fwd := if p then some .waitSig else none, handler := .wait,
    children := List.replicate n initChild, delivers := [],
    fwdGot := none, osFirst := none, cascadeFired := false,
    consumed := 0, exited := false }

/-! ### List helpers -/

theorem get?_lt {α : Type} {l : List α} {i : Nat} {a : α}
    (h : l.get? i = some a) : i < l.length := by
  induction l generalizing i with
  | nil => simp [List.get?] at h
  | cons x t ih =>
    cases i with
    | zero => simp
    | succ j => simpa using ih (by simpa [List.get?] using h)

theorem get?_set_self {α : Type} {l : List α} {i : Nat} {a : α} (b : α)
    (h : l.get? i = some a) : (l.set i b).get? i = some b := by
  induction l generalizing i with
  | nil => simp [List.get?] at h
  | cons x t ih =>
    cases i with
    | zero => simp [List.set]
    | succ j => simpa [List.set] using ih (by simpa [List.get?] using h)

theorem get?_set_ne {α : Type} (l : List α) (i : Nat) (b : α) {j : Nat}
    (h : i ≠ j) : (l.set i b).get? j = l.get? j := by
  induction l generalizing i j with
  | nil => simp
  | cons x t ih =>
    cases i with
    | zero =>
      cases j with
      | zero => exact absurd rfl h
      | succ j' => simp [List.set]
    | succ i' =>
      cases j with
      | zero => simp [List.set]
      | succ j' => simpa [List.set] using ih i' (fun he => h (by simp [he]))

theorem get?_replicate {α : Type} {n i : Nat} {a b : α}
    (h : (List.replicate n a).get? i = some b) : b = a := by
  induction n generalizing i with
  | zero => simp [List.replicate] at h
  | succ m ih =>
    cases i with
    | zero =>
      simp [List.replicate] at h
      exact h.symm
    | succ j => exact ih (by simpa [List.replicate] using h)

/-- Number of children whose exit notification has been sent. -/
def sentCount : List Child → Nat
  | [] => 0
  | c :: t => (if c.exitSent = true then 1 else 0) + sentCount t

theorem sentCount_replicate (n : Nat) :
    sentCount (List.replicate n initChild) = 0 := by
  induction n with
  | zero => rfl
  | succ m ih => simpa [List.replicate, sentCount, initChild] using ih

theorem sentCount_le_length (l : List Child) : sentCount l ≤ l.length := by
  induction l with
  | nil => simp [sentCount]
  | cons c t ih =>
    by_cases h : c.exitSent = true
    · simp [sentCount, h]; omega
    · simp [sentCount, h]; omega

theorem sentCount_lt_length {l : List Child} {i : Nat} {c : Child}
    (h : l.get? i = some c) (hs : c.exitSent = false) : sentCount l < l.length := by
  induction l generalizing i with
  | nil => simp [List.get?] at h
  | cons x t ih =>
    cases i with
    | zero =>
      simp [List.get?] at h
      subst h
      have := sentCount_le_length t
      simp [sentCount, hs]
      omega
    | succ j =>
      have := ih (i := j) (by simpa [List.get?] using h)
      by_cases hx : x.exitSent = true <;> simp [sentCount, hx] <;> omega

theorem sentCount_set {l : List Child} {i : Nat} {c : Child}
    (c' : Child) (h : l.get? i = some c) :
    sentCount (l.set i c') + (if c.exitSent = true then 1 else 0) =
      sentCount l + (if c'.exitSent = true then 1 else 0) := by
  induction l generalizing i with
  | nil => simp [List.get?] at h
  | cons x t ih =>
    cases i with
    | zero =>
      simp [List.get?] at h
      subst h
      simp [List.set, sentCount]
      omega
    | succ j =>
      have := ih (i := j) (by simpa [List.get?] using h)
      simp [List.set, sentCount]
      omega

/-- Number of occurrences of a delivery-log entry. -/
def occ (e : Nat × Signal) : List (Nat × Signal) → Nat
  | [] => 0
  | x :: t => (if x = e then 1 else 0) + occ e t

theorem occ_append (e : Nat × Signal) (l₁ l₂ : List (Nat × Signal)) :
    occ e (l₁ ++ l₂) = occ e l₁ + occ e l₂ := by
  induction l₁ with
  | nil => simp [occ]
  | cons x t ih => simp [occ, ih]; omega

theorem one_le_occ_of_mem {e : Nat × Signal} {l : List (Nat × Signal)}
    (h : e ∈ l) : 1 ≤ occ e l := by
  induction l with
  | nil => simp at h
  | cons x t ih =>
    rcases List.mem_cons.mp h with h' | h'
    · simp [occ, h'.symm]
    · have := ih h'
      by_cases hx : x = e <;> simp [occ, hx] <;> omega

theorem occ_eq_zero_of_forall_ne {e : Nat × Signal}
    {l : List (Nat × Signal)} (h : ∀ x ∈ l, x ≠ e) : occ e l = 0 := by
  induction l with
  | nil => rfl
  | cons x t ih =>
    have hx : x ≠ e := h x (by simp)
    simp [occ, hx]
    exact ih fun y hy => h y (by simp [hy])

theorem occ_le_one_of_pairwise {l : List (Nat × Signal)}
    (h : (l.map Prod.fst).Pairwise (· < ·)) (e : Nat × Signal) :
    occ e l ≤ 1 := by
  induction l with
  | nil => simp [occ]
  | cons x t ih =>
    simp only [List.map_cons, List.pairwise_cons] at h
    by_cases hx : x = e
    · have hz : occ e t = 0 := by
        apply occ_eq_zero_of_forall_ne
        intro y hy hye
        have hlt : x.1 < y.1 := h.1 y.1 (List.mem_map_of_mem Prod.fst hy)
        rw [hx, hye] at hlt
        omega
      simp [occ, hx, hz]
    · have := ih h.2
      simp [occ, hx]
      omega

/-! ### State transformers for the individual steps -/

/-- Effect of child `i`'s OS process terminating: `child.wait()` returns. -/
def stChildExits (s : State) (i : Nat) (c : Child) : State :=
  { s with children :=
      s.children.set i { c with procRunning := false, watcher := .setDead } }

/-- Effect of the watcher's `is_alive.store(false)`. -/
def stSetDead (s : State) (i : Nat) (c : Child) : State :=
  { s with children :=
      s.children.set i { c with alive := false, watcher := .sendExit } }

/-- Effect of the rendezvous of the watcher's `exit_tx.send(())` with the
coordinator's `exit_rx.recv()`. -/
def stExitRendezvous (s : State) (i : Nat) (c : Child) : State :=
  { s with
    coord := .decide,
    consumed := s.consumed + 1,
    children :=
      s.children.set i { c with watcher := .sendLocalExit, exitSent := true } }

/-- Effect of the watcher's `exit_tx.send(())` failing (receiver dropped). -/
def stExitSendError (s : State) (i : Nat) (c : Child) : State :=
  { s with children := s.children.set i { c with watcher := .panicked } }

/-- Effect of the coordinator's `fetch_sub` reaching zero: break and print
the completion line. -/
def stDecideDone (s : State) : State :=
  { s with coord := .done, count := s.count - 1 }

/-- Effect of the coordinator looping around without cascading (IS_SIGNALED
read true). -/
def stDecideQuiet (s : State) : State :=
  { s with coord := .waitExit, count := s.count - 1 }

/-- Effect of the coordinator entering the blocking cascade send (IS_SIGNALED
read false). -/
def stDecideCascade (s : State) : State :=
  { s with coord := .sendCascade, count := s.count - 1, cascadeFired := true }

/-- Effect of the cascade send's rendezvous with the forwarder's receive. -/
def stCascadeRendezvous (s : State) : State :=
  { s with
    coord := .waitExit,
    fwd := some (.deliver 0 SIGTERM),
    fwdGot := some SIGTERM }

/-- Effect of the cascade send failing (forwarder gone, receiver dropped). -/
def stCascadeError (s : State) : State :=
  { s with coord := .panicked }

/-- Effect of the OS delivering signal `sg` to the supervisor. -/
def stOsSignal (s : State) (sg : Signal) : State :=
  { s with
    handler := .store sg,
    osFirst := if s.osFirst = none then some sg else s.osFirst }

/-- Effect of the handler's `IS_SIGNALED.store(true)` when pid1. -/
def stHandlerStorePid1 (s : State) (sg : Signal) : State :=
  { s with signaled := true, handler := .sendSig sg }

/-- Effect of the handler's `IS_SIGNALED.store(true)` when not pid1. -/
def stHandlerStoreNonPid1 (s : State) : State :=
  { s with signaled := true, handler := .wait }

/-- Effect of the handler's send rendezvousing with the forwarder. -/
def stHandlerSendRendezvous (s : State) (sg : Signal) : State :=
  { s with handler := .wait, fwd := some (.deliver 0 sg), fwdGot := some sg }

/-- Effect of the handler's send failing (forwarder gone). -/
def stHandlerSendError (s : State) : State :=
  { s with handler := .panicked }

/-- Effect of the forwarder finishing its pass over the process vector. -/
def stFwdDone (s : State) : State :=
  { s with fwd := some .done }

/-- Effect of `send_signal` reading `is_alive == false`: skip to the next
process, changing nothing else. -/
def stFwdSkipDead (s : State) (i : Nat) (sg : Signal) : State :=
  { s with fwd := some (.deliver (i + 1) sg) }

/-- Effect of `send_signal` reading `is_alive == true` and entering the
blocking send on the child's signal channel. -/
def stFwdBeginSend (s : State) (i : Nat) (sg : Signal) : State :=
  { s with fwd := some (.sendChild i sg) }

/-- Effect of the forwarder's send to a child failing (relay loop ended). -/
def stFwdSendError (s : State) : State :=
  { s with fwd := some .panicked }

/-- Effect of the relay taking a pending signal and running `kill`; the
completed delivery is logged and the forwarder's send returns. -/
def stRelayTakeSignal (s : State) (i : Nat) (sg : Signal) : State :=
  { s with
    fwd := some (.deliver (i + 1) sg),
    delivers := s.delivers ++ [(i, sg)] }

/-- Effect of the relay taking a pending signal (running `kill`) and then the
pending local-exit notice in the same iteration, breaking the loop. -/
def stRelayTakeSignalAndExit (s : State) (i : Nat) (sg : Signal) (c : Child) : State :=
  { s with
    fwd := some (.deliver (i + 1) sg),
    delivers := s.delivers ++ [(i, sg)],
    children :=
      s.children.set i { c with watcher := .done, relay := .done, localSent := true } }

/-- Effect of the relay taking only the local-exit notice and breaking. -/
def stRelayTakeLocalExit (s : State) (i : Nat) (c : Child) : State :=
  { s with children :=
      s.children.set i { c with watcher := .done, relay := .done, localSent := true } }

/-- Effect of the main thread returning: the supervisor process ends. -/
def stProcessEnd (s : State) : State :=
  { s with exited := true }

/-! ### The step relation -/

/-- One raw step of the transition system.  Each constructor is one
instruction-level step of one thread of the Rust program, or one environment
event (a child process terminating, the OS delivering a registered signal).
Sends and receives on the zero-capacity channels are rendezvous: both sides
advance in the same step.  A send whose receiving end has been dropped makes
the sending thread panic (the source wraps every send in `.expect`). -/
inductive RawStep : State → State → Prop
  /-- Environment: the OS process of child `i` terminates, unblocking
  `child.wait()` in the exit watcher. -/
  | childExits (s : State) (i : Nat) (c : Child)
      (hc : s.children.get? i = some c)
      (hr : c.procRunning = true) (hw : c.watcher = .waitChild) :
      RawStep s (stChildExits s i c)
  /-- Watcher of child `i` runs `is_alive.store(false)` (and prints the exit
  status line). -/
  | watcherSetDead (s : State) (i : Nat) (c : Child)
      (hc : s.children.get? i = some c) (hw : c.watcher = .setDead) :
      RawStep s (stSetDead s i c)
  /-- Rendezvous of the watcher's `exit_tx.send(())` with the coordinator's
  `exit_rx.recv()`. -/
  | exitRendezvous (s : State) (i : Nat) (c : Child)
      (hc : s.children.get? i = some c) (hw : c.watcher = .sendExit)
      (hco : s.coord = .waitExit) :
      RawStep s (stExitRendezvous s i c)
  /-- The watcher's `exit_tx.send(())` fails because the coordinator loop has
  ended and dropped `exit_rx`; the watcher thread panics. -/
  | exitSendError (s : State) (i : Nat) (c : Child)
      (hc : s.children.get? i = some c) (hw : c.watcher = .sendExit)
      (hco : s.coord = .done ∨ s.coord = .panicked) :
      RawStep s (stExitSendError s i c)
  /-- Coordinator: `fetch_sub` brings the count to zero, `break`, print
  the completion line.  (The counter never underflows: it is at least 1
  whenever the coordinator is at this point, see the invariant.) -/
  | coordDecideDone (s : State)
      (h : s.coord = .decide) (hz : s.count - 1 = 0) :
      RawStep s (stDecideDone s)
  /-- Coordinator: count still nonzero and IS_SIGNALED reads true; loop
  around without cascading. -/
  | coordDecideQuiet (s : State)
      (h : s.coord = .decide) (hz : s.count - 1 ≠ 0) (hs : s.signaled = true) :
      RawStep s (stDecideQuiet s)
  /-- Coordinator: count still nonzero and IS_SIGNALED reads false; enter the
  blocking `signal_tx_clone.send(SIGTERM)`. -/
  | coordDecideCascade (s : State)
      (h : s.coord = .decide) (hz : s.count - 1 ≠ 0) (hs : s.signaled = false) :
      RawStep s (stDecideCascade s)
  /-- Rendezvous of the coordinator's cascade send with the forwarder's
  `signal_rx.recv()`; the forwarder starts its delivery pass with SIGTERM. -/
  | cascadeRendezvous (s : State)
      (h : s.coord = .sendCascade) (hf : s.fwd = some .waitSig) :
      RawStep s (stCascadeRendezvous s)
  /-- The cascade send fails: the forwarder thread has ended and dropped the
  only receiver of the signal channel; the coordinator thread panics. -/
  | cascadeError (s : State)
      (h : s.coord = .sendCascade)
      (hf : s.fwd = some .done ∨ s.fwd = some .panicked) :
      RawStep s (stCascadeError s)
  /-- Environment: the OS delivers one of the three registered
  termination-class signals to the supervisor process. -/
  | osSignal (s : State) (sg : Signal)
      (hsg : sg = SIGTERM ∨ sg = SIGINT ∨ sg = SIGQUIT)
      (hh : s.handler = .wait) :
      RawStep s (stOsSignal s sg)
  /-- Handler: `IS_SIGNALED.store(true)`; pid1, so proceed to forward the
  signal on the signal channel. -/
  | handlerStorePid1 (s : State) (sg : Signal)
      (hh : s.handler = .store sg) (hp : s.isPid1 = true) :
      RawStep s (stHandlerStorePid1 s sg)
  /-- Handler: `IS_SIGNALED.store(true)`; not pid1, so no forwarding, back to
  `signals.forever()`. -/
  | handlerStoreNonPid1 (s : State) (sg : Signal)
      (hh : s.handler = .store sg) (hp : s.isPid1 = false) :
      RawStep s (stHandlerStoreNonPid1 s)
  /-- Rendezvous of the handler's `signal_tx.send(sg)` with the forwarder's
  `signal_rx.recv()`. -/
  | handlerSendRendezvous (s : State) (sg : Signal)
      (hh : s.handler = .sendSig sg) (hf : s.fwd = some .waitSig) :
      RawStep s (stHandlerSendRendezvous s sg)
  /-- The handler's send fails: forwarder gone, receiver dropped; the handler
  thread panics. -/
  | handlerSendError (s : State) (sg : Signal)
      (hh : s.handler = .sendSig sg)
      (hf : s.fwd = some .done ∨ s.fwd = some .panicked) :
      RawStep s (stHandlerSendError s)
  /-- Forwarder: the `for_each` over the process vector is exhausted; the
  thread ends and drops `signal_rx`. -/
  | fwdDone (s : State) (i : Nat) (sg : Signal)
      (hf : s.fwd = some (.deliver i sg)) (hi : s.children.length ≤ i) :
      RawStep s (stFwdDone s)
  /-- Forwarder: `send_signal` on child `i` reads `is_alive == false` and
  returns without doing anything (the silent no-op branch). -/
  | fwdSkipDead (s : State) (i : Nat) (sg : Signal) (c : Child)
      (hf : s.fwd = some (.deliver i sg))
      (hc : s.children.get? i = some c) (ha : c.alive = false) :
      RawStep s (stFwdSkipDead s i sg)
  /-- Forwarder: `send_signal` on child `i` reads `is_alive == true` and
  enters the blocking `signal_tx.send(sg)` on the child's signal channel. -/
  | fwdBeginSend (s : State) (i : Nat) (sg : Signal) (c : Child)
      (hf : s.fwd = some (.deliver i sg))
      (hc : s.children.get? i = some c) (ha : c.alive = true) :
      RawStep s (stFwdBeginSend s i sg)
  /-- Forwarder: the send to child `i` fails because the relay loop has ended
  and dropped its receiver; the forwarder thread panics. -/
  | fwdSendError (s : State) (i : Nat) (sg : Signal) (c : Child)
      (hf : s.fwd = some (.sendChild i sg))
      (hc : s.children.get? i = some c) (hr : c.relay = .done) :
      RawStep s (stFwdSendError s)
  /-- Relay of child `i`: `select.ready()` fires, `try_recv` takes the pending
  signal from the forwarder and the loop runs `kill(pid, sg)`; no local-exit
  notice is pending, so the loop iterates.  The completed delivery is
  logged. -/
  | relayTakeSignal (s : State) (i : Nat) (sg : Signal) (c : Child)
      (hf : s.fwd = some (.sendChild i sg))
      (hc : s.children.get? i = some c) (hr : c.relay = .wait)
      (hw : c.watcher ≠ .sendLocalExit) :
      RawStep s (stRelayTakeSignal s i sg)
  /-- Relay of child `i`: both a signal and the local-exit notice are pending;
  the iteration takes the signal first (running `kill`), then the local-exit
  notice, and breaks. -/
  | relayTakeSignalAndExit (s : State) (i : Nat) (sg : Signal) (c : Child)
      (hf : s.fwd = some (.sendChild i sg))
      (hc : s.children.get? i = some c) (hr : c.relay = .wait)
      (hw : c.watcher = .sendLocalExit) :
      RawStep s (stRelayTakeSignalAndExit s i sg c)
  /-- Relay of child `i`: only the local-exit notice is pending; take it and
  break, unblocking the watcher. -/
  | relayTakeLocalExit (s : State) (i : Nat) (c : Child)
      (hc : s.children.get? i = some c) (hr : c.relay = .wait)
      (hw : c.watcher = .sendLocalExit)
      (hnf : ∀ sg, s.fwd ≠ some (.sendChild i sg)) :
      RawStep s (stRelayTakeLocalExit s i c)
  /-- Main: the coordinator thread ended normally, `join` returns, `main`
  returns and the supervisor process exits (status 0). -/
  | mainExit (s : State) (h : s.coord = .done) :
      RawStep s (stProcessEnd s)
  /-- Main: the coordinator thread panicked, `join` returns an error, main's
  `.expect` panics and the supervisor process aborts. -/
  | mainAbort (s : State) (h : s.coord = .panicked) :
      RawStep s (stProcessEnd s)

/-- A step can happen only while the supervisor process is still running. -/
def Step (s s' : State) : Prop := s.exited = false ∧ RawStep s s'

/-- Reachability in zero or more steps. -/
def Reach : State → State → Prop := Relation.ReflTransGen Step

theorem Reach.refl {s : State} : Reach s s := Relation.ReflTransGen.refl

theorem Reach.trans {a b c : State} (h₁ : Reach a b) (h₂ : Reach b c) :
    Reach a c := Relation.ReflTransGen.trans h₁ h₂

theorem Reach.head {a b c : State} (h₁ : Step a b) (h₂ : Reach b c) :
    Reach a c := Relation.ReflTransGen.head h₁ h₂

theorem Reach.single {a b : State} (h : Step a b) : Reach a b :=
  Relation.ReflTransGen.single h

end SpotInit

namespace SpotInit

/-! ### The global invariant -/

/-- Per-child coherence between the watcher's program counter, the `is_alive`
flag, the underlying OS process, and the history booleans.  The watcher's
code is straight-line after `child.wait()` returns, which gives one fixed
shape per program point; in particular `is_alive` is false from the store
on, the exit notification is sent before the local-exit notice, and the
relay loop ends exactly when the local-exit notice has been taken. -/
def ChildInv (c : Child) : Prop :=
  (c.relay = .done ↔ c.localSent = true) ∧
  match c.watcher with
  | .waitChild =>
      c.alive = true ∧ c.exitSent = false ∧ c.localSent = false
  | .setDead =>
      c.alive = true ∧ c.procRunning = false ∧ c.exitSent = false ∧
        c.localSent = false
  | .sendExit =>
      c.alive = false ∧ c.procRunning = false ∧ c.exitSent = false ∧
        c.localSent = false
  | .sendLocalExit =>
      c.alive = false ∧ c.procRunning = false ∧ c.exitSent = true ∧
        c.localSent = false
  | .done =>
      c.alive = false ∧ c.procRunning = false ∧ c.exitSent = true ∧
        c.localSent = true
  | .panicked =>
      c.alive = false ∧ c.procRunning = false ∧ c.exitSent = false ∧
        c.localSent = false

/-- The handler thread has seen an OS signal whenever it is past the
receive, and IS_SIGNALED is set before the handler's forwarding send. -/
def handlerInv (s : State) : Prop :=
  match s.handler with
  | .wait => True
  | .store _ => s.osFirst.isSome = true
  | .sendSig _ => s.osFirst.isSome = true ∧ s.signaled = true
  | .panicked => True

/-- Shape of the delivery log relative to the forwarder's position.  Before
the forwarder consumes a signal the log is empty; during the pass every
logged delivery is of the consumed signal and addressed to an already
visited child, and every visited child that is still alive has been
delivered to; after the pass the same holds for all children. -/
def fwdInv (s : State) : Prop :=
  match s.fwd with
  | none => s.delivers = [] ∧ s.fwdGot = none
  | some .waitSig => s.delivers = [] ∧ s.fwdGot = none
  | some (.deliver i sg) =>
      s.fwdGot = some sg ∧
      (∀ e ∈ s.delivers, e.2 = sg ∧ e.1 < i) ∧
      (∀ j c, j < i → s.children.get? j = some c → c.alive = true →
        (j, sg) ∈ s.delivers)
  | some (.sendChild i sg) =>
      s.fwdGot = some sg ∧
      (∀ e ∈ s.delivers, e.2 = sg ∧ e.1 < i) ∧
      (∀ j c, j < i → s.children.get? j = some c → c.alive = true →
        (j, sg) ∈ s.delivers) ∧
      i < s.children.length
  | some .done =>
      s.fwdGot.isSome = true ∧
      (∀ e ∈ s.delivers, some e.2 = s.fwdGot) ∧
      (∀ j c, s.children.get? j = some c → c.alive = true →
        ∀ sg, s.fwdGot = some sg → (j, sg) ∈ s.delivers)
  | some .panicked => True

/-- The global inductive invariant of a run started from `init n p`. -/
structure Inv (n : Nat) (p : Bool) (s : State) : Prop where
  pid : s.isPid1 = p
  len : s.children.length = n
  nonPrimary : s.isPid1 = false → s.fwd = none ∧ s.fwdGot = none ∧ s.delivers = []
  fwdI : fwdInv s
  idx : (s.delivers.map Prod.fst).Pairwise (· < ·)
  sig : s.signaled = true → s.osFirst.isSome = true
  hand : handlerInv s
  child : ∀ i c, s.children.get? i = some c → ChildInv c
  cons : s.consumed = sentCount s.children
  cnt1 : s.coord = .decide → s.count + s.consumed = n + 1 ∧ 1 ≤ s.consumed
  cnt2 : s.coord ≠ .decide → s.count + s.consumed = n
  fin : s.coord = .done → s.count = 0

theorem inv_init (n : Nat) (p : Bool) : Inv n p (init n p) := by
  refine ⟨rfl, by simp [init], ?_, ?_, ?_, ?_, ?_, ?_, ?_, ?_, ?_, ?_⟩
  · intro hp
    simp [init] at hp ⊢
    simp [hp]
  · cases p <;> simp [init, fwdInv]
  · simp [init]
  · intro h
    simp [init] at h
  · simp [init, handlerInv]
  · intro i c hc
    have := get?_replicate (by simpa [init] using hc)
    subst this
    simp [ChildInv, initChild]
  · simpa [init] using (sentCount_replicate n).symm
  · intro h
    simp [init] at h
  · intro _
    simp [init]
  · intro h
    simp [init] at h

end SpotInit

namespace SpotInit

/-! ### Preservation of the invariant -/

theorem childs_set {s : State} {i : Nat} {c : Child} (c' : Child)
    (hc : s.children.get? i = some c)
    (hall : ∀ j d, s.children.get? j = some d → ChildInv d)
    (h' : ChildInv c') :
    ∀ j d, (s.children.set i c').get? j = some d → ChildInv d := by
  intro j d hd
  by_cases hji : i = j
  · subst hji
    rw [get?_set_self c' hc] at hd
    cases hd
    exact h'
  · rw [get?_set_ne _ _ _ hji] at hd
    exact hall j d hd

theorem sentCount_set_same {l : List Child} {i : Nat} {c : Child} (c' : Child)
    (hc : l.get? i = some c) (he : c'.exitSent = c.exitSent) :
    sentCount (l.set i c') = sentCount l := by
  have := sentCount_set c' hc
  rw [he] at this
  omega

theorem fwdInv_set {s : State} {i : Nat} {c : Child} (c' : Child)
    (hc : s.children.get? i = some c)
    (ha : c'.alive = true → c.alive = true)
    (h : fwdInv s) :
    fwdInv { s with children := s.children.set i c' } := by
  unfold fwdInv at h ⊢
  dsimp only
  cases hfw : s.fwd with
  | none => rwa [hfw] at h
  | some f =>
    rw [hfw] at h
    cases f with
    | waitSig => exact h
    | deliver k sg =>
      obtain ⟨hg, hent, hmem⟩ := h
      refine ⟨hg, hent, ?_⟩
      intro j d hj hd hal
      by_cases hji : i = j
      · subst hji
        rw [get?_set_self c' hc] at hd
        cases hd
        exact hmem i c hj hc (ha hal)
      · rw [get?_set_ne _ _ _ hji] at hd
        exact hmem j d hj hd hal
    | sendChild k sg =>
      obtain ⟨hg, hent, hmem, hlen⟩ := h
      refine ⟨hg, hent, ?_, by simpa using hlen⟩
      intro j d hj hd hal
      by_cases hji : i = j
      · subst hji
        rw [get?_set_self c' hc] at hd
        cases hd
        exact hmem i c hj hc (ha hal)
      · rw [get?_set_ne _ _ _ hji] at hd
        exact hmem j d hj hd hal
    | done =>
      obtain ⟨hg, hent, hmem⟩ := h
      refine ⟨hg, hent, ?_⟩
      intro j d hd hal sg hgot
      by_cases hji : i = j
      · subst hji
        rw [get?_set_self c' hc] at hd
        cases hd
        exact hmem i c hc (ha hal) sg hgot
      · rw [get?_set_ne _ _ _ hji] at hd
        exact hmem j d hd hal sg hgot
    | panicked => exact h

theorem pairwise_append_lt {l : List (Nat × Signal)} {i : Nat}
    (h : (l.map Prod.fst).Pairwise (· < ·)) (hb : ∀ e ∈ l, e.1 < i)
    (sg : Signal) :
    (((l ++ [(i, sg)]).map Prod.fst).Pairwise (· < ·)) := by
  rw [List.map_append]
  rw [List.pairwise_append]
  refine ⟨h, by simp, ?_⟩
  intro a ha b hb'
  simp at hb'
  subst hb'
  obtain ⟨e, he, hfst⟩ := List.mem_map.mp ha
  subst hfst
  exact hb e he

end SpotInit

namespace SpotInit

theorem inv_stChildExits {n : Nat} {p : Bool} {s : State} {i : Nat} {c : Child}
    (hI : Inv n p s) (hc : s.children.get? i = some c)
    (hw : c.watcher = .waitChild) :
    Inv n p (stChildExits s i c) := by
  obtain ⟨hiff, hsh⟩ := hI.child i c hc
  rw [hw] at hsh
  obtain ⟨ha, he, hl⟩ := hsh
  refine ⟨hI.pid, ?_, hI.nonPrimary, ?_, hI.idx, hI.sig, hI.hand, ?_, ?_,
    hI.cnt1, hI.cnt2, hI.fin⟩
  · simpa [stChildExits] using hI.len
  · exact fwdInv_set _ hc (fun hh => hh) hI.fwdI
  · exact childs_set _ hc hI.child ⟨hiff, ha, rfl, he, hl⟩
  · simp only [stChildExits]
    rw [sentCount_set_same ({ c with procRunning := false, watcher := .setDead }) hc rfl]
    exact hI.cons

theorem inv_stSetDead {n : Nat} {p : Bool} {s : State} {i : Nat} {c : Child}
    (hI : Inv n p s) (hc : s.children.get? i = some c)
    (hw : c.watcher = .setDead) :
    Inv n p (stSetDead s i c) := by
  obtain ⟨hiff, hsh⟩ := hI.child i c hc
  rw [hw] at hsh
  obtain ⟨ha, hr, he, hl⟩ := hsh
  refine ⟨hI.pid, ?_, hI.nonPrimary, ?_, hI.idx, hI.sig, hI.hand, ?_, ?_,
    hI.cnt1, hI.cnt2, hI.fin⟩
  · simpa [stSetDead] using hI.len
  · exact fwdInv_set _ hc (fun hh => by simp at hh) hI.fwdI
  · exact childs_set _ hc hI.child ⟨hiff, rfl, hr, he, hl⟩
  · simp only [stSetDead]
    rw [sentCount_set_same ({ c with alive := false, watcher := .sendExit }) hc rfl]
    exact hI.cons

theorem inv_stExitSendError {n : Nat} {p : Bool} {s : State} {i : Nat} {c : Child}
    (hI : Inv n p s) (hc : s.children.get? i = some c)
    (hw : c.watcher = .sendExit) :
    Inv n p (stExitSendError s i c) := by
  obtain ⟨hiff, hsh⟩ := hI.child i c hc
  rw [hw] at hsh
  obtain ⟨ha, hr, he, hl⟩ := hsh
  refine ⟨hI.pid, ?_, hI.nonPrimary, ?_, hI.idx, hI.sig, hI.hand, ?_, ?_,
    hI.cnt1, hI.cnt2, hI.fin⟩
  · simpa [stExitSendError] using hI.len
  · exact fwdInv_set _ hc (fun hh => hh) hI.fwdI
  · exact childs_set _ hc hI.child ⟨hiff, ha, hr, he, hl⟩
  · simp only [stExitSendError]
    rw [sentCount_set_same ({ c with watcher := .panicked }) hc rfl]
    exact hI.cons

theorem inv_stExitRendezvous {n : Nat} {p : Bool} {s : State} {i : Nat} {c : Child}
    (hI : Inv n p s) (hc : s.children.get? i = some c)
    (hw : c.watcher = .sendExit) (hco : s.coord = .waitExit) :
    Inv n p (stExitRendezvous s i c) := by
  obtain ⟨hiff, hsh⟩ := hI.child i c hc
  rw [hw] at hsh
  obtain ⟨ha, hr, he, hl⟩ := hsh
  have hcons := hI.cons
  have hcnt := hI.cnt2 (by rw [hco]; intro hh; cases hh)
  refine ⟨hI.pid, ?_, hI.nonPrimary, ?_, hI.idx, hI.sig, hI.hand, ?_, ?_,
    ?_, ?_, ?_⟩
  · simpa [stExitRendezvous] using hI.len
  · exact fwdInv_set _ hc (fun hh => hh) hI.fwdI
  · exact childs_set _ hc hI.child ⟨hiff, ha, hr, rfl, hl⟩
  · simp only [stExitRendezvous]
    have := sentCount_set ({ c with watcher := .sendLocalExit, exitSent := true }) hc
    rw [he] at this
    simp at this
    omega
  · intro _
    simp only [stExitRendezvous]
    constructor
    · omega
    · omega
  · intro hne
    exact absurd rfl hne
  · intro hd
    simp [stExitRendezvous] at hd

end SpotInit

namespace SpotInit

theorem consumed_le {n : Nat} {p : Bool} {s : State} (hI : Inv n p s) :
    s.consumed ≤ n := by
  have h1 := sentCount_le_length s.children
  have h2 := hI.len
  have h3 := hI.cons
  omega

theorem inv_stDecideDone {n : Nat} {p : Bool} {s : State}
    (hI : Inv n p s) (h : s.coord = .decide) (hz : s.count - 1 = 0) :
    Inv n p (stDecideDone s) := by
  have hcnt := hI.cnt1 h
  have hle := consumed_le hI
  refine ⟨hI.pid, hI.len, hI.nonPrimary, hI.fwdI, hI.idx, hI.sig, hI.hand,
    hI.child, hI.cons, ?_, ?_, ?_⟩
  · intro hd
    simp [stDecideDone] at hd
  · intro _
    simp only [stDecideDone]
    omega
  · intro _
    simp only [stDecideDone]
    omega

theorem inv_stDecideQuiet {n : Nat} {p : Bool} {s : State}
    (hI : Inv n p s) (h : s.coord = .decide) :
    Inv n p (stDecideQuiet s) := by
  have hcnt := hI.cnt1 h
  have hle := consumed_le hI
  refine ⟨hI.pid, hI.len, hI.nonPrimary, hI.fwdI, hI.idx, hI.sig, hI.hand,
    hI.child, hI.cons, ?_, ?_, ?_⟩
  · intro hd
    simp [stDecideQuiet] at hd
  · intro _
    simp only [stDecideQuiet]
    omega
  · intro hd
    simp [stDecideQuiet] at hd

theorem inv_stDecideCascade {n : Nat} {p : Bool} {s : State}
    (hI : Inv n p s) (h : s.coord = .decide) :
    Inv n p (stDecideCascade s) := by
  have hcnt := hI.cnt1 h
  have hle := consumed_le hI
  refine ⟨hI.pid, hI.len, hI.nonPrimary, hI.fwdI, hI.idx, hI.sig, hI.hand,
    hI.child, hI.cons, ?_, ?_, ?_⟩
  · intro hd
    simp [stDecideCascade] at hd
  · intro _
    simp only [stDecideCascade]
    omega
  · intro hd
    simp [stDecideCascade] at hd

theorem inv_stCascadeRendezvous {n : Nat} {p : Bool} {s : State}
    (hI : Inv n p s) (h : s.coord = .sendCascade) (hf : s.fwd = some .waitSig) :
    Inv n p (stCascadeRendezvous s) := by
  have hold := hI.fwdI
  unfold fwdInv at hold
  rw [hf] at hold
  obtain ⟨hdel, hgot⟩ := hold
  have hcnt := hI.cnt2 (by rw [h]; intro hh; cases hh)
  refine ⟨hI.pid, hI.len, ?_, ?_, hI.idx, hI.sig, hI.hand,
    hI.child, hI.cons, ?_, ?_, ?_⟩
  · intro hp
    have h0 := (hI.nonPrimary hp).1
    rw [h0] at hf
    simp at hf
  · unfold fwdInv
    refine ⟨rfl, ?_, ?_⟩
    · intro e he
      have he' : e ∈ s.delivers := he
      rw [hdel] at he'
      simp at he'
    · intro j c hj hc hal
      omega
  · intro hd
    simp [stCascadeRendezvous] at hd
  · intro _
    simp only [stCascadeRendezvous]
    omega
  · intro hd
    simp [stCascadeRendezvous] at hd

theorem inv_stCascadeError {n : Nat} {p : Bool} {s : State}
    (hI : Inv n p s) (h : s.coord = .sendCascade) :
    Inv n p (stCascadeError s) := by
  have hcnt := hI.cnt2 (by rw [h]; intro hh; cases hh)
  refine ⟨hI.pid, hI.len, hI.nonPrimary, hI.fwdI, hI.idx, hI.sig, hI.hand,
    hI.child, hI.cons, ?_, ?_, ?_⟩
  · intro hd
    simp [stCascadeError] at hd
  · intro _
    simp only [stCascadeError]
    omega
  · intro hd
    simp [stCascadeError] at hd

theorem inv_stOsSignal {n : Nat} {p : Bool} {s : State} {sg : Signal}
    (hI : Inv n p s) (hh : s.handler = .wait) :
    Inv n p (stOsSignal s sg) := by
  have hsome : (stOsSignal s sg).osFirst.isSome = true := by
    simp only [stOsSignal]
    by_cases ho : s.osFirst = none
    · simp [ho]
    · simp [ho, Option.isSome_iff_exists]
      exact Option.ne_none_iff_exists'.mp ho
  refine ⟨hI.pid, hI.len, hI.nonPrimary, hI.fwdI, hI.idx, ?_, ?_,
    hI.child, hI.cons, hI.cnt1, hI.cnt2, hI.fin⟩
  · intro _
    exact hsome
  · exact hsome

theorem inv_stHandlerStorePid1 {n : Nat} {p : Bool} {s : State} {sg : Signal}
    (hI : Inv n p s) (hh : s.handler = .store sg) :
    Inv n p (stHandlerStorePid1 s sg) := by
  have hold := hI.hand
  unfold handlerInv at hold
  rw [hh] at hold
  refine ⟨hI.pid, hI.len, hI.nonPrimary, hI.fwdI, hI.idx, ?_, ?_,
    hI.child, hI.cons, hI.cnt1, hI.cnt2, hI.fin⟩
  · intro _
    exact hold
  · exact ⟨hold, rfl⟩

theorem inv_stHandlerStoreNonPid1 {n : Nat} {p : Bool} {s : State} {sg : Signal}
    (hI : Inv n p s) (hh : s.handler = .store sg) :
    Inv n p (stHandlerStoreNonPid1 s) := by
  have hold := hI.hand
  unfold handlerInv at hold
  rw [hh] at hold
  refine ⟨hI.pid, hI.len, hI.nonPrimary, hI.fwdI, hI.idx, ?_, ?_,
    hI.child, hI.cons, hI.cnt1, hI.cnt2, hI.fin⟩
  · intro _
    exact hold
  · exact trivial

theorem inv_stHandlerSendRendezvous {n : Nat} {p : Bool} {s : State} {sg : Signal}
    (hI : Inv n p s) (hh : s.handler = .sendSig sg) (hf : s.fwd = some .waitSig) :
    Inv n p (stHandlerSendRendezvous s sg) := by
  have hold := hI.fwdI
  unfold fwdInv at hold
  rw [hf] at hold
  obtain ⟨hdel, hgot⟩ := hold
  refine ⟨hI.pid, hI.len, ?_, ?_, hI.idx, hI.sig, ?_,
    hI.child, hI.cons, hI.cnt1, hI.cnt2, hI.fin⟩
  · intro hp
    have h0 := (hI.nonPrimary hp).1
    rw [h0] at hf
    simp at hf
  · unfold fwdInv
    refine ⟨rfl, ?_, ?_⟩
    · intro e he
      have he' : e ∈ s.delivers := he
      rw [hdel] at he'
      simp at he'
    · intro j c hj hc hal
      omega
  · exact trivial

theorem inv_stHandlerSendError {n : Nat} {p : Bool} {s : State}
    (hI : Inv n p s) :
    Inv n p (stHandlerSendError s) := by
  refine ⟨hI.pid, hI.len, hI.nonPrimary, hI.fwdI, hI.idx, hI.sig, ?_,
    hI.child, hI.cons, hI.cnt1, hI.cnt2, hI.fin⟩
  exact trivial

theorem inv_stProcessEnd {n : Nat} {p : Bool} {s : State}
    (hI : Inv n p s) :
    Inv n p (stProcessEnd s) :=
  ⟨hI.pid, hI.len, hI.nonPrimary, hI.fwdI, hI.idx, hI.sig, hI.hand,
    hI.child, hI.cons, hI.cnt1, hI.cnt2, hI.fin⟩

end SpotInit

namespace SpotInit

theorem inv_stFwdDone {n : Nat} {p : Bool} {s : State} {i : Nat} {sg : Signal}
    (hI : Inv n p s) (hf : s.fwd = some (.deliver i sg))
    (hi : s.children.length ≤ i) :
    Inv n p (stFwdDone s) := by
  have hold := hI.fwdI
  unfold fwdInv at hold
  rw [hf] at hold
  obtain ⟨hg, hent, hmem⟩ := hold
  refine ⟨hI.pid, hI.len, ?_, ?_, hI.idx, hI.sig, hI.hand,
    hI.child, hI.cons, hI.cnt1, hI.cnt2, hI.fin⟩
  · intro hp
    have h0 := (hI.nonPrimary hp).1
    rw [h0] at hf
    simp at hf
  · unfold fwdInv
    refine ⟨?_, ?_, ?_⟩
    · show s.fwdGot.isSome = true
      rw [hg]
      rfl
    · intro e he
      show some e.2 = s.fwdGot
      rw [hg, (hent e he).1]
    · intro j c hc hal sg' hgot
      have hsg : sg' = sg := by
        have : s.fwdGot = some sg' := hgot
        rw [hg] at this
        exact (Option.some_inj.mp this).symm
      subst hsg
      exact hmem j c (lt_of_lt_of_le (get?_lt hc) hi) hc hal

theorem inv_stFwdSkipDead {n : Nat} {p : Bool} {s : State} {i : Nat}
    {sg : Signal} {c : Child}
    (hI : Inv n p s) (hf : s.fwd = some (.deliver i sg))
    (hc : s.children.get? i = some c) (ha : c.alive = false) :
    Inv n p (stFwdSkipDead s i sg) := by
  have hold := hI.fwdI
  unfold fwdInv at hold
  rw [hf] at hold
  obtain ⟨hg, hent, hmem⟩ := hold
  refine ⟨hI.pid, hI.len, ?_, ?_, hI.idx, hI.sig, hI.hand,
    hI.child, hI.cons, hI.cnt1, hI.cnt2, hI.fin⟩
  · intro hp
    have h0 := (hI.nonPrimary hp).1
    rw [h0] at hf
    simp at hf
  · unfold fwdInv
    refine ⟨hg, ?_, ?_⟩
    · intro e he
      have h1 := hent e he
      exact ⟨h1.1, by omega⟩
    · intro j d hj hd hal
      by_cases hji : j = i
      · subst hji
        have hd' : s.children.get? j = some d := hd
        rw [hc] at hd'
        cases hd'
        rw [hal] at ha
        cases ha
      · exact hmem j d (by omega) hd hal

theorem inv_stFwdBeginSend {n : Nat} {p : Bool} {s : State} {i : Nat}
    {sg : Signal} {c : Child}
    (hI : Inv n p s) (hf : s.fwd = some (.deliver i sg))
    (hc : s.children.get? i = some c) :
    Inv n p (stFwdBeginSend s i sg) := by
  have hold := hI.fwdI
  unfold fwdInv at hold
  rw [hf] at hold
  obtain ⟨hg, hent, hmem⟩ := hold
  refine ⟨hI.pid, hI.len, ?_, ?_, hI.idx, hI.sig, hI.hand,
    hI.child, hI.cons, hI.cnt1, hI.cnt2, hI.fin⟩
  · intro hp
    have h0 := (hI.nonPrimary hp).1
    rw [h0] at hf
    simp at hf
  · unfold fwdInv
    exact ⟨hg, hent, hmem, get?_lt hc⟩

theorem inv_stFwdSendError {n : Nat} {p : Bool} {s : State} {i : Nat}
    {sg : Signal}
    (hI : Inv n p s) (hf : s.fwd = some (.sendChild i sg)) :
    Inv n p (stFwdSendError s) := by
  refine ⟨hI.pid, hI.len, ?_, ?_, hI.idx, hI.sig, hI.hand,
    hI.child, hI.cons, hI.cnt1, hI.cnt2, hI.fin⟩
  · intro hp
    have h0 := (hI.nonPrimary hp).1
    rw [h0] at hf
    simp at hf
  · exact trivial

theorem inv_stRelayTakeSignal {n : Nat} {p : Bool} {s : State} {i : Nat}
    {sg : Signal}
    (hI : Inv n p s) (hf : s.fwd = some (.sendChild i sg)) :
    Inv n p (stRelayTakeSignal s i sg) := by
  have hold := hI.fwdI
  unfold fwdInv at hold
  rw [hf] at hold
  obtain ⟨hg, hent, hmem, hlen⟩ := hold
  refine ⟨hI.pid, hI.len, ?_, ?_, ?_, hI.sig, hI.hand,
    hI.child, hI.cons, hI.cnt1, hI.cnt2, hI.fin⟩
  · intro hp
    have h0 := (hI.nonPrimary hp).1
    rw [h0] at hf
    simp at hf
  · unfold fwdInv
    refine ⟨hg, ?_, ?_⟩
    · intro e he
      have he' : e ∈ s.delivers ++ [(i, sg)] := he
      rcases List.mem_append.mp he' with h1 | h1
      · have := hent e h1
        exact ⟨this.1, by omega⟩
      · simp at h1
        subst h1
        exact ⟨rfl, by omega⟩
    · intro j d hj hd hal
      show (j, sg) ∈ s.delivers ++ [(i, sg)]
      by_cases hji : j = i
      · subst hji
        exact List.mem_append_right _ (by simp)
      · exact List.mem_append_left _ (hmem j d (by omega) hd hal)
  · show ((s.delivers ++ [(i, sg)]).map Prod.fst).Pairwise (· < ·)
    exact pairwise_append_lt hI.idx (fun e he => (hent e he).2) sg

theorem inv_stRelayTakeSignalAndExit {n : Nat} {p : Bool} {s : State} {i : Nat}
    {sg : Signal} {c : Child}
    (hI : Inv n p s) (hf : s.fwd = some (.sendChild i sg))
    (hc : s.children.get? i = some c) (hw : c.watcher = .sendLocalExit) :
    Inv n p (stRelayTakeSignalAndExit s i sg c) := by
  have hold := hI.fwdI
  unfold fwdInv at hold
  rw [hf] at hold
  obtain ⟨hg, hent, hmem, hlen⟩ := hold
  obtain ⟨hiff, hsh⟩ := hI.child i c hc
  rw [hw] at hsh
  obtain ⟨ha, hr, he, hl⟩ := hsh
  refine ⟨hI.pid, ?_, ?_, ?_, ?_, hI.sig, hI.hand, ?_, ?_,
    hI.cnt1, hI.cnt2, hI.fin⟩
  · simpa [stRelayTakeSignalAndExit] using hI.len
  · intro hp
    have h0 := (hI.nonPrimary hp).1
    rw [h0] at hf
    simp at hf
  · unfold fwdInv
    refine ⟨hg, ?_, ?_⟩
    · intro e he'
      have he'' : e ∈ s.delivers ++ [(i, sg)] := he'
      rcases List.mem_append.mp he'' with h1 | h1
      · have := hent e h1
        exact ⟨this.1, by omega⟩
      · simp at h1
        subst h1
        exact ⟨rfl, by omega⟩
    · intro j d hj hd hal
      show (j, sg) ∈ s.delivers ++ [(i, sg)]
      by_cases hji : j = i
      · subst hji
        exact List.mem_append_right _ (by simp)
      · have hd' : s.children.get? j = some d := by
          have : (s.children.set i
              { c with watcher := .done, relay := .done, localSent := true }).get? j =
              some d := hd
          rwa [get?_set_ne _ _ _ (fun hh => hji hh.symm)] at this
        exact List.mem_append_left _ (hmem j d (by omega) hd' hal)
  · show ((s.delivers ++ [(i, sg)]).map Prod.fst).Pairwise (· < ·)
    exact pairwise_append_lt hI.idx (fun e he' => (hent e he').2) sg
  · exact childs_set _ hc hI.child ⟨by simp, ha, hr, he, rfl⟩
  · show s.consumed = sentCount (s.children.set i
      { c with watcher := .done, relay := .done, localSent := true })
    rw [sentCount_set_same
      ({ c with watcher := .done, relay := .done, localSent := true }) hc rfl]
    exact hI.cons

theorem inv_stRelayTakeLocalExit {n : Nat} {p : Bool} {s : State} {i : Nat}
    {c : Child}
    (hI : Inv n p s) (hc : s.children.get? i = some c)
    (hw : c.watcher = .sendLocalExit) :
    Inv n p (stRelayTakeLocalExit s i c) := by
  obtain ⟨hiff, hsh⟩ := hI.child i c hc
  rw [hw] at hsh
  obtain ⟨ha, hr, he, hl⟩ := hsh
  refine ⟨hI.pid, ?_, hI.nonPrimary, ?_, hI.idx, hI.sig, hI.hand, ?_, ?_,
    hI.cnt1, hI.cnt2, hI.fin⟩
  · simpa [stRelayTakeLocalExit] using hI.len
  · exact fwdInv_set _ hc (fun hh => hh) hI.fwdI
  · exact childs_set _ hc hI.child ⟨by simp, ha, hr, he, rfl⟩
  · show s.consumed = sentCount (s.children.set i
      { c with watcher := .done, relay := .done, localSent := true })
    rw [sentCount_set_same
      ({ c with watcher := .done, relay := .done, localSent := true }) hc rfl]
    exact hI.cons

end SpotInit

namespace SpotInit

/-- The invariant is preserved by every raw step. -/
theorem inv_rawStep {n : Nat} {p : Bool} {s s' : State}
    (hI : Inv n p s) (hr : RawStep s s') : Inv n p s' := by
  cases hr with
  | childExits i c hc hrp hw => exact inv_stChildExits hI hc hw
  | watcherSetDead i c hc hw => exact inv_stSetDead hI hc hw
  | exitRendezvous i c hc hw hco => exact inv_stExitRendezvous hI hc hw hco
  | exitSendError i c hc hw hco => exact inv_stExitSendError hI hc hw
  | coordDecideDone h hz => exact inv_stDecideDone hI h hz
  | coordDecideQuiet h hz hs => exact inv_stDecideQuiet hI h
  | coordDecideCascade h hz hs => exact inv_stDecideCascade hI h
  | cascadeRendezvous h hf => exact inv_stCascadeRendezvous hI h hf
  | cascadeError h hf => exact inv_stCascadeError hI h
  | osSignal sg hsg hh => exact inv_stOsSignal hI hh
  | handlerStorePid1 sg hh hp => exact inv_stHandlerStorePid1 hI hh
  | handlerStoreNonPid1 sg hh hp => exact inv_stHandlerStoreNonPid1 hI hh
  | handlerSendRendezvous sg hh hf => exact inv_stHandlerSendRendezvous hI hh hf
  | handlerSendError sg hh hf => exact inv_stHandlerSendError hI
  | fwdDone i sg hf hi => exact inv_stFwdDone hI hf hi
  | fwdSkipDead i sg c hf hc ha => exact inv_stFwdSkipDead hI hf hc ha
  | fwdBeginSend i sg c hf hc ha => exact inv_stFwdBeginSend hI hf hc
  | fwdSendError i sg c hf hc hr => exact inv_stFwdSendError hI hf
  | relayTakeSignal i sg c hf hc hr hw => exact inv_stRelayTakeSignal hI hf
  | relayTakeSignalAndExit i sg c hf hc hr hw =>
      exact inv_stRelayTakeSignalAndExit hI hf hc hw
  | relayTakeLocalExit i c hc hr hw hnf =>
      exact inv_stRelayTakeLocalExit hI hc hw
  | mainExit h => exact inv_stProcessEnd hI
  | mainAbort h => exact inv_stProcessEnd hI

theorem inv_step {n : Nat} {p : Bool} {s s' : State}
    (hI : Inv n p s) (hst : Step s s') : Inv n p s' :=
  inv_rawStep hI hst.2

/-- Every state reachable from the initial state satisfies the invariant. -/
theorem inv_of_reach {n : Nat} {p : Bool} {s : State}
    (h : Reach (init n p) s) : Inv n p s := by
  induction h with
  | refl => exact inv_init n p
  | tail hab hbc ih => exact inv_step ih hbc

theorem inv_of_reach_of_inv {n : Nat} {p : Bool} {s s' : State}
    (hI : Inv n p s) (h : Reach s s') : Inv n p s' := by
  induction h with
  | refl => exact hI
  | tail hab hbc ih => exact inv_step ih hbc

/-! ### Persistence and monotonicity facts -/

/-- IS_SIGNALED is written only by `IS_SIGNALED.store(true)` in the handler:
once set it is never cleared. -/
theorem signaled_mono_step {s s' : State} (h : Step s s')
    (hs : s.signaled = true) : s'.signaled = true := by
  cases h.2 <;>
    simp [stChildExits, stSetDead, stExitRendezvous, stExitSendError,
      stDecideDone, stDecideQuiet, stDecideCascade, stCascadeRendezvous,
      stCascadeError, stOsSignal, stHandlerStorePid1, stHandlerStoreNonPid1,
      stHandlerSendRendezvous, stHandlerSendError, stFwdDone, stFwdSkipDead,
      stFwdBeginSend, stFwdSendError, stRelayTakeSignal,
      stRelayTakeSignalAndExit, stRelayTakeLocalExit, stProcessEnd, hs]

theorem signaled_mono {s s' : State} (h : Reach s s')
    (hs : s.signaled = true) : s'.signaled = true := by
  induction h with
  | refl => exact hs
  | tail hab hbc ih => exact signaled_mono_step hbc ih

/-- Once the forwarder thread has finished, it stays finished, the signal it
consumed does not change, and no further delivery is ever logged. -/
theorem fwdDone_frozen_step {s s' : State} (h : Step s s')
    (hf : s.fwd = some .done) :
    s'.fwd = some .done ∧ s'.fwdGot = s.fwdGot ∧ s'.delivers = s.delivers := by
  cases h.2 with
  | cascadeRendezvous hco hfw => rw [hf] at hfw; simp at hfw
  | handlerSendRendezvous sg hh hfw => rw [hf] at hfw; simp at hfw
  | fwdDone i sg hfw hi => rw [hf] at hfw; simp at hfw
  | fwdSkipDead i sg c hfw hc ha => rw [hf] at hfw; simp at hfw
  | fwdBeginSend i sg c hfw hc ha => rw [hf] at hfw; simp at hfw
  | fwdSendError i sg c hfw hc hr => rw [hf] at hfw; simp at hfw
  | relayTakeSignal i sg c hfw hc hr hw => rw [hf] at hfw; simp at hfw
  | relayTakeSignalAndExit i sg c hfw hc hr hw => rw [hf] at hfw; simp at hfw
  | _ => exact ⟨hf, rfl, rfl⟩

theorem fwdDone_frozen {s s' : State} (h : Reach s s')
    (hf : s.fwd = some .done) :
    s'.fwd = some .done ∧ s'.fwdGot = s.fwdGot ∧ s'.delivers = s.delivers := by
  induction h with
  | refl => exact ⟨hf, rfl, rfl⟩
  | tail hab hbc ih =>
    obtain ⟨h1, h2, h3⟩ := fwdDone_frozen_step hbc ih.1
    exact ⟨h1, h2.trans ih.2.1, h3.trans ih.2.2⟩

/-- A panicked coordinator thread stays panicked and consumes no further
exit notification. -/
theorem coordPanicked_frozen_step {s s' : State} (h : Step s s')
    (hc : s.coord = .panicked) :
    s'.coord = .panicked ∧ s'.consumed = s.consumed := by
  cases h.2 with
  | exitRendezvous i c hcg hw hco => rw [hc] at hco; simp at hco
  | coordDecideDone hd hz => rw [hc] at hd; simp at hd
  | coordDecideQuiet hd hz hs => rw [hc] at hd; simp at hd
  | coordDecideCascade hd hz hs => rw [hc] at hd; simp at hd
  | cascadeRendezvous hd hf => rw [hc] at hd; simp at hd
  | cascadeError hd hf => rw [hc] at hd; simp at hd
  | mainExit hd => rw [hc] at hd; simp at hd
  | _ => exact ⟨hc, rfl⟩

theorem coordPanicked_frozen {s s' : State} (h : Reach s s')
    (hc : s.coord = .panicked) :
    s'.coord = .panicked ∧ s'.consumed = s.consumed := by
  induction h with
  | refl => exact ⟨hc, rfl⟩
  | tail hab hbc ih =>
    obtain ⟨h1, h2⟩ := coordPanicked_frozen_step hbc ih.1
    exact ⟨h1, h2.trans ih.2⟩

end SpotInit

namespace SpotInit

/-- In a non-pid1 run there is no forwarder thread, so nothing can ever
receive from the signal channel: a coordinator blocked in the cascade send
stays blocked, and no further exit notification is consumed. -/
theorem cascadeStuck_step {n : Nat} {s s' : State}
    (hI : Inv n false s) (h : Step s s') (hc : s.coord = .sendCascade) :
    s'.coord = .sendCascade ∧ s'.consumed = s.consumed := by
  have hfn : s.fwd = none := (hI.nonPrimary hI.pid).1
  cases h.2 with
  | exitRendezvous i c hcg hw hco => rw [hc] at hco; simp at hco
  | coordDecideDone hd hz => rw [hc] at hd; simp at hd
  | coordDecideQuiet hd hz hs => rw [hc] at hd; simp at hd
  | coordDecideCascade hd hz hs => rw [hc] at hd; simp at hd
  | cascadeRendezvous hd hf => rw [hfn] at hf; simp at hf
  | cascadeError hd hf =>
      rw [hfn] at hf
      rcases hf with hf | hf <;> simp at hf
  | handlerSendRendezvous sg hh hf => rw [hfn] at hf; simp at hf
  | fwdDone i sg hf hi => rw [hfn] at hf; simp at hf
  | fwdSkipDead i sg c hf hcg ha => rw [hfn] at hf; simp at hf
  | fwdBeginSend i sg c hf hcg ha => rw [hfn] at hf; simp at hf
  | fwdSendError i sg c hf hcg hr => rw [hfn] at hf; simp at hf
  | relayTakeSignal i sg c hf hcg hr hw => rw [hfn] at hf; simp at hf
  | relayTakeSignalAndExit i sg c hf hcg hr hw => rw [hfn] at hf; simp at hf
  | mainExit hd => rw [hc] at hd; simp at hd
  | mainAbort hd => rw [hc] at hd; simp at hd
  | _ => exact ⟨hc, rfl⟩

theorem cascadeStuck_nonPrimary {n : Nat} {s s' : State}
    (hI : Inv n false s) (hc : s.coord = .sendCascade) (h : Reach s s') :
    s'.coord = .sendCascade ∧ s'.consumed = s.consumed := by
  induction h with
  | refl => exact ⟨hc, rfl⟩
  | tail hab hbc ih =>
    have hIb := inv_of_reach_of_inv hI hab
    obtain ⟨h1, h2⟩ := cascadeStuck_step hIb hbc ih.1
    exact ⟨h1, h2.trans ih.2⟩

/-- With an empty process table there is no child, hence no exit notification
can ever rendezvous with the coordinator: the coordinator stays blocked in
`exit_rx.recv()` forever and the run never ends. -/
theorem emptyConfig_step {p : Bool} {s s' : State}
    (hI : Inv 0 p s) (h : Step s s')
    (hc : s.coord = .waitExit) (he : s.exited = false) :
    s'.coord = .waitExit ∧ s'.exited = false ∧ s'.consumed = s.consumed := by
  have hlen : s.children.length = 0 := hI.len
  cases h.2 with
  | exitRendezvous i c hcg hw hco =>
      have := get?_lt hcg
      omega
  | coordDecideDone hd hz => rw [hc] at hd; simp at hd
  | coordDecideQuiet hd hz hs => rw [hc] at hd; simp at hd
  | coordDecideCascade hd hz hs => rw [hc] at hd; simp at hd
  | cascadeRendezvous hd hf => rw [hc] at hd; simp at hd
  | cascadeError hd hf => rw [hc] at hd; simp at hd
  | mainExit hd => rw [hc] at hd; simp at hd
  | mainAbort hd => rw [hc] at hd; simp at hd
  | _ => exact ⟨hc, he, rfl⟩

theorem emptyConfig_stuck {p : Bool} {s : State}
    (h : Reach (init 0 p) s) :
    s.coord = .waitExit ∧ s.exited = false ∧ s.consumed = 0 := by
  induction h with
  | refl => exact ⟨rfl, rfl, rfl⟩
  | tail hab hbc ih =>
    have hIb := inv_of_reach hab
    obtain ⟨h1, h2, h3⟩ := emptyConfig_step hIb hbc ih.1 ih.2.1
    exact ⟨h1, h2, h3.trans ih.2.2⟩

/-- Case analysis of all possible steps while the forwarder is at
`send_signal` for child `i` whose `is_alive` flag is false: every step either
leaves the forwarder untouched (it is some other thread's step) or is exactly
the silent skip to the next child, which changes nothing else. -/
theorem fwd_deliver_dead_cases {s s' : State} {i : Nat} {sg : Signal} {c : Child}
    (h : Step s s') (hf : s.fwd = some (.deliver i sg))
    (hc : s.children.get? i = some c) (ha : c.alive = false) :
    s'.fwd = s.fwd ∨ s' = stFwdSkipDead s i sg := by
  cases h.2 with
  | cascadeRendezvous hco hfw => rw [hf] at hfw; simp at hfw
  | handlerSendRendezvous sg' hh hfw => rw [hf] at hfw; simp at hfw
  | fwdDone i' sg' hfw hi =>
      rw [hf] at hfw
      simp at hfw
      obtain ⟨h1, h2⟩ := hfw
      subst h1
      have := get?_lt hc
      omega
  | fwdSkipDead i' sg' c' hfw hc' ha' =>
      rw [hf] at hfw
      simp at hfw
      obtain ⟨h1, h2⟩ := hfw
      subst h1
      subst h2
      exact Or.inr rfl
  | fwdBeginSend i' sg' c' hfw hc' ha' =>
      rw [hf] at hfw
      simp at hfw
      obtain ⟨h1, h2⟩ := hfw
      subst h1
      rw [hc] at hc'
      cases hc'
      rw [ha'] at ha
      cases ha
  | fwdSendError i' sg' c' hfw hc' hr => rw [hf] at hfw; simp at hfw
  | relayTakeSignal i' sg' c' hfw hc' hr hw => rw [hf] at hfw; simp at hfw
  | relayTakeSignalAndExit i' sg' c' hfw hc' hr hw => rw [hf] at hfw; simp at hfw
  | _ => exact Or.inl rfl

end SpotInit

namespace SpotInit

/-! ### Claim statements -/

/-- The child record currently stored at index `i` (used to spell out
concrete execution traces). -/
def ch (s : State) (i : Nat) : Child := (s.children.get? i).getD initChild

theorem get?_mem {l : List Child} {i : Nat} {c : Child}
    (h : l.get? i = some c) : c ∈ l := by
  induction l generalizing i with
  | nil => simp [List.get?] at h
  | cons x t ih =>
    cases i with
    | zero =>
      simp [List.get?] at h
      simp [h]
    | succ j =>
      have := ih (i := j) (by simpa [List.get?] using h)
      simp [this]

theorem all_get? {P : Child → Bool} {l : List Child} (h : l.all P = true) :
    ∀ j c, l.get? j = some c → P c = true := fun _ c hc =>
  List.all_eq_true.mp h c (get?_mem hc)

/-- A state from which no step at all is possible (in particular any state
after the supervisor process has ended). -/
def Terminal (s : State) : Prop := ∀ s', ¬ Step s s'

/-- Claim C1 as stated: whenever the coordinator consumes an exit
notification with the resulting count nonzero and IS_SIGNALED false, then —
in whatever way the run continues — every child still alive at that point
gets a TERMINATE delivery because the coordinator cascades by calling
deliver on each of them. -/
def claimC1 : Prop :=
  ∀ (n : Nat) (p : Bool) (s s' : State), Reach (init n p) s → Step s s' →
    s.coord = .decide → s'.coord ≠ .decide →
    s.count - 1 ≠ 0 → s.signaled = false →
    ∀ j c, s'.children.get? j = some c → c.alive = true →
      ∃ s'', Reach s' s'' ∧ (j, SIGTERM) ∈ s''.delivers

/-- Claim C2 as stated: in a run where some child's process has terminated
while no OS signal has been observed, every other still-alive child receives
exactly one TERMINATE delivery attempt in total (at least one in some
continuation, never more than one in any continuation). -/
def claimC2 : Prop :=
  ∀ (n : Nat) (p : Bool) (s : State), Reach (init n p) s →
    s.osFirst = none →
    (∃ j c, s.children.get? j = some c ∧ c.procRunning = false) →
    ∀ j' c', s.children.get? j' = some c' → c'.alive = true →
      (∃ s'', Reach s s'' ∧ occ (j', SIGTERM) s''.delivers = 1) ∧
      (∀ s'', Reach s s'' → occ (j', SIGTERM) s''.delivers ≤ 1)

/-- Claim C4 as stated: the exit watcher first clears `alive`, then emits the
local-exit notice, and last the shared exit notification — so a child whose
exit notification has been sent must already have had its local-exit notice
sent, and a child whose local-exit notice has been sent is no longer alive. -/
def claimC4 : Prop :=
  ∀ (n : Nat) (p : Bool) (s : State), Reach (init n p) s →
    ∀ j c, s.children.get? j = some c →
      (c.localSent = true → c.alive = false) ∧
      (c.exitSent = true → c.localSent = true)

/-- Claim C6 as stated: if the supervisor runs as pid1 and an external
termination-class signal is observed while every child process is still
running, then in every completed run continuing from there every configured
child ends up with exactly one logged delivery of that signal's kind. -/
def claimC6 : Prop :=
  ∀ (n : Nat) (sg : Signal) (s₁ s₂ : State),
    Reach (init n true) s₁ → s₁.osFirst = some sg →
    s₁.children.all (fun c => c.procRunning) = true →
    Reach s₁ s₂ → Terminal s₂ →
    ∀ j c, s₂.children.get? j = some c → occ (j, sg) s₂.delivers = 1

/-- Claim C9 as stated: if the run is not pid1, or the forwarder has already
consumed its single broadcast signal, then a coordinator that has entered
the cascade send stays blocked in that send forever and never consumes
another exit notification. -/
def claimC9 : Prop :=
  ∀ (n : Nat) (p : Bool) (s : State), Reach (init n p) s →
    s.coord = .sendCascade → (p = false ∨ s.fwd = some .done) →
    ∀ s', Reach s s' → s'.coord = .sendCascade ∧ s'.consumed = s.consumed

end SpotInit

namespace SpotInit

/-! ### Concrete execution traces

Trace A: two children, not pid1.  Child 0 exits, its notification is
consumed, the coordinator enters the cascade send — where it will stay. -/

def a0 : State := init 2 false
def a1 : State := stChildExits a0 0 (ch a0 0)
def a2 : State := stSetDead a1 0 (ch a1 0)
def a3 : State := stExitRendezvous a2 0 (ch a2 0)
def a4 : State := stDecideCascade a3

theorem stepA1 : Step a0 a1 :=
  ⟨rfl, .childExits a0 0 (ch a0 0) (by decide) (by decide) (by decide)⟩

theorem stepA2 : Step a1 a2 :=
  ⟨rfl, .watcherSetDead a1 0 (ch a1 0) (by decide) (by decide)⟩

theorem stepA3 : Step a2 a3 :=
  ⟨rfl, .exitRendezvous a2 0 (ch a2 0) (by decide) (by decide) (by decide)⟩

theorem stepA4 : Step a3 a4 :=
  ⟨rfl, .coordDecideCascade a3 (by decide) (by decide) (by decide)⟩

theorem reach_a2 : Reach (init 2 false) a2 :=
  Reach.head stepA1 (Reach.single stepA2)

theorem reach_a3 : Reach (init 2 false) a3 :=
  Reach.head stepA1 (Reach.head stepA2 (Reach.single stepA3))

theorem reach_a4 : Reach (init 2 false) a4 :=
  Reach.head stepA1 (Reach.head stepA2 (Reach.head stepA3 (Reach.single stepA4)))

/-! Trace B: two children, pid1.  Child 0 exits, the cascade rendezvouses
with the forwarder, which skips the dead child 0 and delivers SIGTERM to the
still-alive child 1. -/

def b0 : State := init 2 true
def b1 : State := stChildExits b0 0 (ch b0 0)
def b2 : State := stSetDead b1 0 (ch b1 0)
def b3 : State := stExitRendezvous b2 0 (ch b2 0)
def b4 : State := stDecideCascade b3
def b5 : State := stCascadeRendezvous b4
def b6 : State := stFwdSkipDead b5 0 SIGTERM
def b7 : State := stFwdBeginSend b6 1 SIGTERM
def b8 : State := stRelayTakeSignal b7 1 SIGTERM

theorem stepB1 : Step b0 b1 :=
  ⟨rfl, .childExits b0 0 (ch b0 0) (by decide) (by decide) (by decide)⟩

theorem stepB2 : Step b1 b2 :=
  ⟨rfl, .watcherSetDead b1 0 (ch b1 0) (by decide) (by decide)⟩

theorem stepB3 : Step b2 b3 :=
  ⟨rfl, .exitRendezvous b2 0 (ch b2 0) (by decide) (by decide) (by decide)⟩

theorem stepB4 : Step b3 b4 :=
  ⟨rfl, .coordDecideCascade b3 (by decide) (by decide) (by decide)⟩

theorem stepB5 : Step b4 b5 :=
  ⟨rfl, .cascadeRendezvous b4 (by decide) (by decide)⟩

theorem stepB6 : Step b5 b6 :=
  ⟨rfl, .fwdSkipDead b5 0 SIGTERM (ch b5 0) (by decide) (by decide) (by decide)⟩

theorem stepB7 : Step b6 b7 :=
  ⟨rfl, .fwdBeginSend b6 1 SIGTERM (ch b6 1) (by decide) (by decide) (by decide)⟩

theorem stepB8 : Step b7 b8 :=
  ⟨rfl, .relayTakeSignal b7 1 SIGTERM (ch b7 1) (by decide) (by decide) (by decide)
    (by decide)⟩

theorem reach_b3 : Reach (init 2 true) b3 :=
  Reach.head stepB1 (Reach.head stepB2 (Reach.single stepB3))

theorem reach_b8 : Reach (init 2 true) b8 :=
  Reach.head stepB1 (Reach.head stepB2 (Reach.head stepB3 (Reach.head stepB4
    (Reach.head stepB5 (Reach.head stepB6 (Reach.head stepB7
      (Reach.single stepB8)))))))

end SpotInit

namespace SpotInit

/-! Trace D: three children, pid1, no OS signal.  Child 0 exits and the
cascade delivers SIGTERM to children 1 and 2, after which the forwarder
thread ends.  Child 1 then exits; since IS_SIGNALED is still false the
coordinator cascades again — but the signal channel's only receiver is gone,
so the send errors and the coordinator thread panics. -/

def d0 : State := init 3 true
def d1 : State := stChildExits d0 0 (ch d0 0)
def d2 : State := stSetDead d1 0 (ch d1 0)
def d3 : State := stExitRendezvous d2 0 (ch d2 0)
def d4 : State := stDecideCascade d3
def d5 : State := stCascadeRendezvous d4
def d6 : State := stFwdSkipDead d5 0 SIGTERM
def d7 : State := stFwdBeginSend d6 1 SIGTERM
def d8 : State := stRelayTakeSignal d7 1 SIGTERM
def d9 : State := stFwdBeginSend d8 2 SIGTERM
def d10 : State := stRelayTakeSignal d9 2 SIGTERM
def d11 : State := stFwdDone d10
def d12 : State := stChildExits d11 1 (ch d11 1)
def d13 : State := stSetDead d12 1 (ch d12 1)
def d14 : State := stExitRendezvous d13 1 (ch d13 1)
def d15 : State := stDecideCascade d14
def d16 : State := stCascadeError d15

theorem stepD1 : Step d0 d1 :=
  ⟨rfl, .childExits d0 0 (ch d0 0) (by decide) (by decide) (by decide)⟩

theorem stepD2 : Step d1 d2 :=
  ⟨rfl, .watcherSetDead d1 0 (ch d1 0) (by decide) (by decide)⟩

theorem stepD3 : Step d2 d3 :=
  ⟨rfl, .exitRendezvous d2 0 (ch d2 0) (by decide) (by decide) (by decide)⟩

theorem stepD4 : Step d3 d4 :=
  ⟨rfl, .coordDecideCascade d3 (by decide) (by decide) (by decide)⟩

theorem stepD5 : Step d4 d5 :=
  ⟨rfl, .cascadeRendezvous d4 (by decide) (by decide)⟩

theorem stepD6 : Step d5 d6 :=
  ⟨rfl, .fwdSkipDead d5 0 SIGTERM (ch d5 0) (by decide) (by decide) (by decide)⟩

theorem stepD7 : Step d6 d7 :=
  ⟨rfl, .fwdBeginSend d6 1 SIGTERM (ch d6 1) (by decide) (by decide) (by decide)⟩

theorem stepD8 : Step d7 d8 :=
  ⟨rfl, .relayTakeSignal d7 1 SIGTERM (ch d7 1) (by decide) (by decide) (by decide)
    (by decide)⟩

theorem stepD9 : Step d8 d9 :=
  ⟨rfl, .fwdBeginSend d8 2 SIGTERM (ch d8 2) (by decide) (by decide) (by decide)⟩

theorem stepD10 : Step d9 d10 :=
  ⟨rfl, .relayTakeSignal d9 2 SIGTERM (ch d9 2) (by decide) (by decide) (by decide)
    (by decide)⟩

theorem stepD11 : Step d10 d11 :=
  ⟨rfl, .fwdDone d10 3 SIGTERM (by decide) (by decide)⟩

theorem stepD12 : Step d11 d12 :=
  ⟨rfl, .childExits d11 1 (ch d11 1) (by decide) (by decide) (by decide)⟩

theorem stepD13 : Step d12 d13 :=
  ⟨rfl, .watcherSetDead d12 1 (ch d12 1) (by decide) (by decide)⟩

theorem stepD14 : Step d13 d14 :=
  ⟨rfl, .exitRendezvous d13 1 (ch d13 1) (by decide) (by decide) (by decide)⟩

theorem stepD15 : Step d14 d15 :=
  ⟨rfl, .coordDecideCascade d14 (by decide) (by decide) (by decide)⟩

theorem stepD16 : Step d15 d16 :=
  ⟨rfl, .cascadeError d15 (by decide) (Or.inl (by decide))⟩

theorem reach_d15 : Reach (init 3 true) d15 :=
  Reach.head stepD1 (Reach.head stepD2 (Reach.head stepD3 (Reach.head stepD4
    (Reach.head stepD5 (Reach.head stepD6 (Reach.head stepD7 (Reach.head stepD8
      (Reach.head stepD9 (Reach.head stepD10 (Reach.head stepD11
        (Reach.head stepD12 (Reach.head stepD13 (Reach.head stepD14
          (Reach.single stepD15))))))))))))))

/-! Trace E: one child, pid1.  An external SIGINT is observed before the
child exits; the forwarder consumes it and delivers it to the still-alive
child, then ends. -/

def e0 : State := init 1 true
def e1 : State := stOsSignal e0 SIGINT
def e2 : State := stHandlerStorePid1 e1 SIGINT
def e3 : State := stHandlerSendRendezvous e2 SIGINT
def e4 : State := stFwdBeginSend e3 0 SIGINT
def e5 : State := stRelayTakeSignal e4 0 SIGINT
def e6 : State := stFwdDone e5

theorem stepE1 : Step e0 e1 :=
  ⟨rfl, .osSignal e0 SIGINT (Or.inr (Or.inl rfl)) (by decide)⟩

theorem stepE2 : Step e1 e2 :=
  ⟨rfl, .handlerStorePid1 e1 SIGINT (by decide) (by decide)⟩

theorem stepE3 : Step e2 e3 :=
  ⟨rfl, .handlerSendRendezvous e2 SIGINT (by decide) (by decide)⟩

theorem stepE4 : Step e3 e4 :=
  ⟨rfl, .fwdBeginSend e3 0 SIGINT (ch e3 0) (by decide) (by decide) (by decide)⟩

theorem stepE5 : Step e4 e5 :=
  ⟨rfl, .relayTakeSignal e4 0 SIGINT (ch e4 0) (by decide) (by decide) (by decide)
    (by decide)⟩

theorem stepE6 : Step e5 e6 :=
  ⟨rfl, .fwdDone e5 1 SIGINT (by decide) (by decide)⟩

theorem reach_e6 : Reach (init 1 true) e6 :=
  Reach.head stepE1 (Reach.head stepE2 (Reach.head stepE3 (Reach.head stepE4
    (Reach.head stepE5 (Reach.single stepE6)))))

/-! Trace F: one child, pid1.  An external SIGINT is observed while the
child is still running, but the child exits on its own before the forwarder
reaches it; `send_signal` reads `is_alive == false` and skips, so the child
receives no delivery at all, and the run completes with an empty delivery
log. -/

def f0 : State := init 1 true
def f1 : State := stOsSignal f0 SIGINT
def f2 : State := stChildExits f1 0 (ch f1 0)
def f3 : State := stSetDead f2 0 (ch f2 0)
def f4 : State := stHandlerStorePid1 f3 SIGINT
def f5 : State := stHandlerSendRendezvous f4 SIGINT
def f6 : State := stFwdSkipDead f5 0 SIGINT
def f7 : State := stFwdDone f6
def f8 : State := stExitRendezvous f7 0 (ch f7 0)
def f9 : State := stDecideDone f8
def f10 : State := stProcessEnd f9

theorem stepF1 : Step f0 f1 :=
  ⟨rfl, .osSignal f0 SIGINT (Or.inr (Or.inl rfl)) (by decide)⟩

theorem stepF2 : Step f1 f2 :=
  ⟨rfl, .childExits f1 0 (ch f1 0) (by decide) (by decide) (by decide)⟩

theorem stepF3 : Step f2 f3 :=
  ⟨rfl, .watcherSetDead f2 0 (ch f2 0) (by decide) (by decide)⟩

theorem stepF4 : Step f3 f4 :=
  ⟨rfl, .handlerStorePid1 f3 SIGINT (by decide) (by decide)⟩

theorem stepF5 : Step f4 f5 :=
  ⟨rfl, .handlerSendRendezvous f4 SIGINT (by decide) (by decide)⟩

theorem stepF6 : Step f5 f6 :=
  ⟨rfl, .fwdSkipDead f5 0 SIGINT (ch f5 0) (by decide) (by decide) (by decide)⟩

theorem stepF7 : Step f6 f7 :=
  ⟨rfl, .fwdDone f6 1 SIGINT (by decide) (by decide)⟩

theorem stepF8 : Step f7 f8 :=
  ⟨rfl, .exitRendezvous f7 0 (ch f7 0) (by decide) (by decide) (by decide)⟩

theorem stepF9 : Step f8 f9 :=
  ⟨rfl, .coordDecideDone f8 (by decide) (by decide)⟩

theorem stepF10 : Step f9 f10 :=
  ⟨rfl, .mainExit f9 (by decide)⟩

theorem reach_f1 : Reach (init 1 true) f1 := Reach.single stepF1

theorem reach_f5 : Reach (init 1 true) f5 :=
  Reach.head stepF1 (Reach.head stepF2 (Reach.head stepF3 (Reach.head stepF4
    (Reach.single stepF5))))

theorem reach_f1_f10 : Reach f1 f10 :=
  Reach.head stepF2 (Reach.head stepF3 (Reach.head stepF4 (Reach.head stepF5
    (Reach.head stepF6 (Reach.head stepF7 (Reach.head stepF8 (Reach.head stepF9
      (Reach.single stepF10))))))))

theorem terminal_f10 : Terminal f10 := fun _ hstep =>
  absurd hstep.1 (by decide)

/-! Trace G: one child, not pid1, no signal: the child exits naturally, the
coordinator consumes the notification, the count hits zero and the
supervisor completes. -/

def g0 : State := init 1 false
def g1 : State := stChildExits g0 0 (ch g0 0)
def g2 : State := stSetDead g1 0 (ch g1 0)
def g3 : State := stExitRendezvous g2 0 (ch g2 0)
def g4 : State := stDecideDone g3

theorem stepG1 : Step g0 g1 :=
  ⟨rfl, .childExits g0 0 (ch g0 0) (by decide) (by decide) (by decide)⟩

theorem stepG2 : Step g1 g2 :=
  ⟨rfl, .watcherSetDead g1 0 (ch g1 0) (by decide) (by decide)⟩

theorem stepG3 : Step g2 g3 :=
  ⟨rfl, .exitRendezvous g2 0 (ch g2 0) (by decide) (by decide) (by decide)⟩

theorem stepG4 : Step g3 g4 :=
  ⟨rfl, .coordDecideDone g3 (by decide) (by decide)⟩

theorem reach_g3 : Reach (init 1 false) g3 :=
  Reach.head stepG1 (Reach.head stepG2 (Reach.single stepG3))

theorem reach_g4 : Reach (init 1 false) g4 :=
  Reach.head stepG1 (Reach.head stepG2 (Reach.head stepG3 (Reach.single stepG4)))

/-! Trace H: one child, not pid1: an external SIGTERM is observed and the
handler stores IS_SIGNALED. -/

def h0 : State := init 1 false
def h1 : State := stOsSignal h0 SIGTERM
def h2 : State := stHandlerStoreNonPid1 h1

theorem stepH1 : Step h0 h1 :=
  ⟨rfl, .osSignal h0 SIGTERM (Or.inl rfl) (by decide)⟩

theorem stepH2 : Step h1 h2 :=
  ⟨rfl, .handlerStoreNonPid1 h1 SIGTERM (by decide) (by decide)⟩

theorem reach_h2 : Reach (init 1 false) h2 :=
  Reach.head stepH1 (Reach.single stepH2)

end SpotInit

namespace SpotInit

/-! ### Claim C1 -/

/-- C1, counterexample.  The claim fails as stated: in a non-pid1 run
(two children, child 0 exits) the coordinator consumes the exit
notification, the resulting count is nonzero and IS_SIGNALED is false, yet
`deliver` is never called on the still-alive child 1 — the coordinator only
sends on the signal channel, which nobody ever receives in a non-pid1 run,
so the delivery log stays empty in every continuation. -/
theorem c1_counterexample : ¬ claimC1 := by
  intro h
  obtain ⟨s'', hr, hmem⟩ := h 2 false a3 a4 reach_a3 stepA4 (by decide)
    (by decide) (by decide) (by decide) 1 (ch a4 1) (by decide) (by decide)
  have hI := inv_of_reach (Reach.trans reach_a4 hr)
  have hdel := (hI.nonPrimary hI.pid).2.2
  rw [hdel] at hmem
  simp at hmem

/-- C1, amended: when the coordinator consumes an exit notification with
resulting count nonzero and IS_SIGNALED false, it initiates the cascade by
entering the blocking send of SIGTERM on the shared signal channel — it does
not itself call `deliver` and logs no delivery; only when the pid1 one-shot
forwarder is still waiting does the rendezvous hand SIGTERM to the
forwarder, which then runs `deliver` (`send_signal`) on every child. -/
theorem c1_cascade_via_channel (n : Nat) (p : Bool) (s : State)
    (hre : Reach (init n p) s) (he : s.exited = false)
    (hco : s.coord = .decide) (hcount : s.count - 1 ≠ 0)
    (hsig : s.signaled = false) :
    Step s (stDecideCascade s) ∧
    (stDecideCascade s).delivers = s.delivers ∧
    (s.fwd = some .waitSig →
      Step (stDecideCascade s) (stCascadeRendezvous (stDecideCascade s))) := by
  refine ⟨⟨he, .coordDecideCascade s hco hcount hsig⟩, rfl, ?_⟩
  intro hf
  exact ⟨he, .cascadeRendezvous (stDecideCascade s) rfl hf⟩

/-- Witness for C1's amended theorem on the concrete pid1 trace B. -/
theorem c1_witness : Step b3 b4 ∧ Step b4 b5 :=
  ⟨(c1_cascade_via_channel 2 true b3 reach_b3 rfl rfl (by decide) rfl).1,
   (c1_cascade_via_channel 2 true b3 reach_b3 rfl rfl (by decide) rfl).2.2 rfl⟩

/-! ### Claim C2 -/

/-- C2, counterexample.  In a non-pid1 run in which child 0 has exited
before any OS signal, the still-alive child 1 never receives any TERMINATE
delivery attempt at all (the delivery log is empty in every reachable
state), so it does not receive exactly one. -/
theorem c2_counterexample : ¬ claimC2 := by
  intro h
  obtain ⟨⟨s'', hr, hocc⟩, _⟩ := h 2 false a2 reach_a2 (by decide)
    ⟨0, ch a2 0, by decide, by decide⟩ 1 (ch a2 1) (by decide) (by decide)
  have hI := inv_of_reach (Reach.trans reach_a2 hr)
  have hdel := (hI.nonPrimary hI.pid).2.2
  rw [hdel] at hocc
  simp [occ] at hocc

/-- C2, amended: over every run, no child ever receives more than one
delivery attempt (the delivery pass is the single forwarder pass, which
visits each index once), and in a non-pid1 run no delivery attempt is made
at all. -/
theorem c2_at_most_one_delivery (n : Nat) (p : Bool) (s : State)
    (hre : Reach (init n p) s) :
    (∀ j sgn, occ (j, sgn) s.delivers ≤ 1) ∧ (p = false → s.delivers = []) := by
  have hI := inv_of_reach hre
  constructor
  · intro j sgn
    exact occ_le_one_of_pairwise hI.idx (j, sgn)
  · intro hp
    subst hp
    exact (hI.nonPrimary hI.pid).2.2

/-- Witness for C2's amended theorem: on the pid1 trace B child 1 has been
delivered to once, and on the non-pid1 trace A the log is empty. -/
theorem c2_witness : occ (1, SIGTERM) b8.delivers ≤ 1 ∧ a4.delivers = [] :=
  ⟨(c2_at_most_one_delivery 2 true b8 reach_b8).1 1 SIGTERM,
   (c2_at_most_one_delivery 2 false a4 reach_a4).2 rfl⟩

/-! ### Claim C3 -/

/-- C3: IS_SIGNALED is false until a termination-class signal is observed —
whenever it is true, an OS signal has been delivered (which is one of the
two observation kinds named by the claim) — and once set it is never reset
for the rest of the run. -/
theorem c3_signaled_monotone (n : Nat) (p : Bool) (s : State)
    (hre : Reach (init n p) s) :
    (s.signaled = true → s.osFirst.isSome = true ∨ s.cascadeFired = true) ∧
    (∀ s', Reach s s' → s.signaled = true → s'.signaled = true) := by
  have hI := inv_of_reach hre
  exact ⟨fun hs => Or.inl (hI.sig hs),
    fun s' hr hs => signaled_mono hr hs⟩

/-- Witness for C3 on the concrete trace H (OS SIGTERM observed, flag set). -/
theorem c3_witness :
    (h2.osFirst.isSome = true ∨ h2.cascadeFired = true) ∧ h2.signaled = true :=
  ⟨(c3_signaled_monotone 1 false h2 reach_h2).1 rfl,
   (c3_signaled_monotone 1 false h2 reach_h2).2 h2 Reach.refl rfl⟩

/-! ### Claim C4 -/

/-- C4, counterexample.  In the code the watcher sends the shared exit
notification BEFORE the local-exit notice (main.rs lines 178-183), so after
the exit rendezvous of child 0 the state has `exitSent` true while
`localSent` is still false — contradicting the claimed order (local-exit
notice before the shared exit notification). -/
theorem c4_counterexample : ¬ claimC4 := by
  intro h
  have := (h 2 false a3 reach_a3 0 (ch a3 0) (by decide)).2 (by decide)
  exact absurd this (by decide)

theorem childInv_facts {c : Child} (h : ChildInv c) :
    (c.exitSent = true → c.alive = false) ∧
    (c.localSent = true → c.exitSent = true) := by
  obtain ⟨hiff, hsh⟩ := h
  cases hw : c.watcher <;> rw [hw] at hsh
  · exact ⟨fun he => absurd he (by simp [hsh.2.1]),
      fun hl => absurd hl (by simp [hsh.2.2])⟩
  · exact ⟨fun he => absurd he (by simp [hsh.2.2.1]),
      fun hl => absurd hl (by simp [hsh.2.2.2])⟩
  · exact ⟨fun he => absurd he (by simp [hsh.2.2.1]),
      fun hl => absurd hl (by simp [hsh.2.2.2])⟩
  · exact ⟨fun _ => hsh.1, fun hl => absurd hl (by simp [hsh.2.2.2])⟩
  · exact ⟨fun _ => hsh.1, fun _ => hsh.2.2.1⟩
  · exact ⟨fun he => absurd he (by simp [hsh.2.2.1]),
      fun hl => absurd hl (by simp [hsh.2.2.2])⟩

/-- C4, amended: the watcher's actual order is `alive := false`, then the
shared exit notification, and last the local-exit notice: in every reachable
state, a child whose exit notification has been sent already has `alive`
false, and a child whose local-exit notice has been sent has already sent
its exit notification. -/
theorem c4_watcher_order (n : Nat) (p : Bool) (s : State)
    (hre : Reach (init n p) s) :
    ∀ j c, s.children.get? j = some c →
      (c.exitSent = true → c.alive = false) ∧
      (c.localSent = true → c.exitSent = true) := fun j c hc =>
  childInv_facts ((inv_of_reach hre).child j c hc)

/-- Witness for C4's amended theorem on trace A after the exit rendezvous. -/
theorem c4_witness : (ch a3 0).alive = false ∧ (ch a3 0).exitSent = true :=
  ⟨(c4_watcher_order 2 false a3 reach_a3 0 (ch a3 0) (by decide)).1 (by decide),
   by decide⟩

/-! ### Claim C5 -/

/-- C5: `deliver` (`Process::send_signal`) on a child whose `alive` flag is
false never blocks (the skip step is immediately enabled), never errors and
has no observable effect (every possible step of the system either leaves
the forwarder untouched or is exactly the skip, which changes only the
forwarder's position); on a child whose `alive` flag is true it enters the
send on that child's signal channel for the relay loop. -/
theorem c5_deliver_dead_noop (n : Nat) (p : Bool) (s : State) (i : Nat)
    (sg : Signal) (c : Child)
    (hre : Reach (init n p) s) (he : s.exited = false)
    (hf : s.fwd = some (.deliver i sg)) (hc : s.children.get? i = some c) :
    (c.alive = false →
      Step s (stFwdSkipDead s i sg) ∧
      ∀ s', Step s s' → s'.fwd = s.fwd ∨ s' = stFwdSkipDead s i sg) ∧
    (c.alive = true → Step s (stFwdBeginSend s i sg)) := by
  constructor
  · intro ha
    exact ⟨⟨he, .fwdSkipDead s i sg c hf hc ha⟩,
      fun s' hstep => fwd_deliver_dead_cases hstep hf hc ha⟩
  · intro ha
    exact ⟨he, .fwdBeginSend s i sg c hf hc ha⟩

/-- Witness for C5 on trace F: the forwarder at the already-exited child 0
performs the silent skip. -/
theorem c5_witness : Step f5 (stFwdSkipDead f5 0 SIGINT) :=
  ((c5_deliver_dead_noop 1 true f5 0 SIGINT (ch f5 0) reach_f5 rfl rfl
    (by decide)).1 (by decide)).1

/-! ### Claim C6 -/

/-- C6, counterexample.  One child, pid1: SIGINT is observed while the child
still runs, but the child exits before the forwarder examines it; the
forwarder skips it (`alive` is false), the run completes, and the delivery
log is empty — the child did not receive exactly one forwarded delivery. -/
theorem c6_counterexample : ¬ claimC6 := by
  intro h
  have := h 1 SIGINT f1 f10 reach_f1 (by decide) (by decide) reach_f1_f10
    terminal_f10 0 (ch f10 0) (by decide)
  exact absurd this (by decide)

/-- C6, amended: once the pid1 one-shot forwarder has completed its single
pass having consumed signal `sg`, then — in any run, including runs in which
some children exited during the pass — every logged delivery is of kind
`sg`, no child ever received more than one delivery, every child that is
still alive received exactly one, and a child that received none is one
whose `alive` flag was already false when the forwarder examined it (it was
skipped and had exited).  The forwarder never runs again: in every
continuation it stays finished and the delivery log never grows. -/
theorem c6_forwarder_delivers_once (n : Nat) (sg : Signal) (s : State)
    (hre : Reach (init n true) s) (hf : s.fwd = some .done)
    (hg : s.fwdGot = some sg) :
    (∀ j c, s.children.get? j = some c →
      (c.alive = true → occ (j, sg) s.delivers = 1) ∧
      occ (j, sg) s.delivers ≤ 1 ∧
      (occ (j, sg) s.delivers = 0 → c.alive = false)) ∧
    (∀ e ∈ s.delivers, e.2 = sg) ∧
    (∀ s', Reach s s' → s'.fwd = some .done ∧ s'.delivers = s.delivers) := by
  have hI := inv_of_reach hre
  have hfw := hI.fwdI
  unfold fwdInv at hfw
  rw [hf] at hfw
  obtain ⟨hsome, hent, hmem⟩ := hfw
  refine ⟨?_, ?_, ?_⟩
  · intro j c hc
    have hle := occ_le_one_of_pairwise hI.idx (j, sg)
    have hone : c.alive = true → occ (j, sg) s.delivers = 1 := by
      intro hal
      have hmem' : (j, sg) ∈ s.delivers := hmem j c hc hal sg hg
      have h1 := one_le_occ_of_mem hmem'
      omega
    refine ⟨hone, hle, ?_⟩
    intro hz
    cases hal : c.alive with
    | false => rfl
    | true =>
      have := hone hal
      omega
  · intro e he
    have h1 := hent e he
    rw [hg] at h1
    exact Option.some_inj.mp h1
  · intro s' hr'
    obtain ⟨h1, _, h3⟩ := fwdDone_frozen hr' hf
    exact ⟨h1, h3⟩

/-! Trace M: two children, pid1, a mixed pass.  SIGINT is observed while
both children run; child 0 then exits before the forwarder examines it
(skipped, no delivery), while the still-alive child 1 is delivered to once. -/

def m0 : State := init 2 true
def m1 : State := stOsSignal m0 SIGINT
def m2 : State := stChildExits m1 0 (ch m1 0)
def m3 : State := stSetDead m2 0 (ch m2 0)
def m4 : State := stHandlerStorePid1 m3 SIGINT
def m5 : State := stHandlerSendRendezvous m4 SIGINT
def m6 : State := stFwdSkipDead m5 0 SIGINT
def m7 : State := stFwdBeginSend m6 1 SIGINT
def m8 : State := stRelayTakeSignal m7 1 SIGINT
def m9 : State := stFwdDone m8

theorem stepM1 : Step m0 m1 :=
  ⟨rfl, .osSignal m0 SIGINT (Or.inr (Or.inl rfl)) (by decide)⟩

theorem stepM2 : Step m1 m2 :=
  ⟨rfl, .childExits m1 0 (ch m1 0) (by decide) (by decide) (by decide)⟩

theorem stepM3 : Step m2 m3 :=
  ⟨rfl, .watcherSetDead m2 0 (ch m2 0) (by decide) (by decide)⟩

theorem stepM4 : Step m3 m4 :=
  ⟨rfl, .handlerStorePid1 m3 SIGINT (by decide) (by decide)⟩

theorem stepM5 : Step m4 m5 :=
  ⟨rfl, .handlerSendRendezvous m4 SIGINT (by decide) (by decide)⟩

theorem stepM6 : Step m5 m6 :=
  ⟨rfl, .fwdSkipDead m5 0 SIGINT (ch m5 0) (by decide) (by decide) (by decide)⟩

theorem stepM7 : Step m6 m7 :=
  ⟨rfl, .fwdBeginSend m6 1 SIGINT (ch m6 1) (by decide) (by decide) (by decide)⟩

theorem stepM8 : Step m7 m8 :=
  ⟨rfl, .relayTakeSignal m7 1 SIGINT (ch m7 1) (by decide) (by decide) (by decide)
    (by decide)⟩

theorem stepM9 : Step m8 m9 :=
  ⟨rfl, .fwdDone m8 2 SIGINT (by decide) (by decide)⟩

theorem reach_m9 : Reach (init 2 true) m9 :=
  Reach.head stepM1 (Reach.head stepM2 (Reach.head stepM3 (Reach.head stepM4
    (Reach.head stepM5 (Reach.head stepM6 (Reach.head stepM7 (Reach.head stepM8
      (Reach.single stepM9))))))))

/-- Witness for C6's amended theorem on the mixed trace M: the still-alive
child 1 has been delivered to exactly once, and the zero-deliveries clause
certifies that child 0 (which received nothing) had already exited. -/
theorem c6_witness :
    occ (1, SIGINT) m9.delivers = 1 ∧ (ch m9 0).alive = false :=
  ⟨((c6_forwarder_delivers_once 2 SIGINT m9 reach_m9 rfl rfl).1 1 (ch m9 1)
      (by decide)).1 (by decide),
   ((c6_forwarder_delivers_once 2 SIGINT m9 reach_m9 rfl rfl).1 0 (ch m9 0)
      (by decide)).2.2 (by decide)⟩

/-! ### Claim C7 -/

/-- C7: a run with `n` configured commands starts with exactly `n` children
and ExitCount `n`; the number of children never changes; the coordinator
reaches its completed state only once it has consumed exactly `n` exit
notifications; and the count is the initial count minus the number of
consumed notifications (one decrement per consumed notification, the one
in-flight notification being accounted at the decide point). -/
theorem c7_exit_counting (n : Nat) (p : Bool) (s : State)
    (hre : Reach (init n p) s) :
    (init n p).count = n ∧ (init n p).children.length = n ∧
    s.children.length = n ∧
    (s.coord = .done → s.consumed = n ∧ s.count = 0) ∧
    (s.coord = .decide → s.count + s.consumed = n + 1) ∧
    (s.coord ≠ .decide → s.count + s.consumed = n) := by
  have hI := inv_of_reach hre
  refine ⟨rfl, by simp [init], hI.len, ?_, fun h => (hI.cnt1 h).1, hI.cnt2⟩
  intro hd
  have h0 := hI.fin hd
  have h2 := hI.cnt2 (by rw [hd]; intro hh; cases hh)
  constructor
  · omega
  · exact h0

/-- Witness for C7 on the completed one-child run G. -/
theorem c7_witness : g4.consumed = 1 ∧ g4.count = 0 ∧ g4.children.length = 1 :=
  ⟨((c7_exit_counting 1 false g4 reach_g4).2.2.2.1 rfl).1,
   ((c7_exit_counting 1 false g4 reach_g4).2.2.2.1 rfl).2,
   (c7_exit_counting 1 false g4 reach_g4).2.2.1⟩

/-! ### Claim C8 -/

/-- C8: the coordinator never reaches its completed state (break and print
the completion line) while the count is positive; the step that brings the
count from positive to zero puts the coordinator in the completed state in
that very step; and from the completed state the supervisor process's final
exit step is immediately enabled (termination within a bounded number of
further steps). -/
theorem c8_terminates_only_at_zero (n : Nat) (p : Bool) (s : State)
    (hre : Reach (init n p) s) :
    (s.coord = .done → s.count = 0) ∧
    (∀ s', Step s s' → 0 < s.count → s'.count = 0 → s'.coord = .done) ∧
    (s.coord = .done → s.exited = true ∨ Step s (stProcessEnd s)) := by
  have hI := inv_of_reach hre
  refine ⟨hI.fin, ?_, ?_⟩
  · intro s' hstep hpos hzero
    cases hstep.2 with
    | coordDecideDone hd hz => rfl
    | coordDecideQuiet hd hz hs =>
        exact absurd (show s.count - 1 = 0 from hzero) hz
    | coordDecideCascade hd hz hs =>
        exact absurd (show s.count - 1 = 0 from hzero) hz
    | _ =>
        exact absurd (show s.count = 0 from hzero) (by omega)
  · intro hd
    cases he : s.exited with
    | true => exact Or.inl rfl
    | false => exact Or.inr ⟨he, .mainExit s hd⟩

/-- Witness for C8: on run G the decrement to zero lands the coordinator in
the completed state. -/
theorem c8_witness : g4.coord = CoordPC.done :=
  (c8_terminates_only_at_zero 1 false g3 reach_g3).2.1 g4 stepG4
    (by decide) (by decide)

/-! ### Claim C9 -/

/-- C9, counterexample.  In the pid1 three-children run D the coordinator is
in the cascade send with the forwarder already finished; the claim says it
stays blocked in that send forever, but in the code the send immediately
returns an error (all receivers dropped) and the coordinator thread panics:
one step later its state is `panicked`, not the blocked send. -/
theorem c9_counterexample : ¬ claimC9 := by
  intro h
  have := (h 3 true d15 reach_d15 rfl (Or.inr rfl) d16 (Reach.single stepD16)).1
  exact absurd this (by decide)

/-- C9, amended: a coordinator in the cascade send (a) in a non-pid1 run
stays in that send forever and never consumes another exit notification —
the signal channel's receiver is held unread by the blocked main thread;
but (b) when the forwarder has already consumed its single signal the
receiver is dropped, the send fails at once, and the coordinator thread
panics — permanently, consuming nothing further — rather than blocking. -/
theorem c9_cascade_block_or_panic (n : Nat) (p : Bool) (s : State)
    (hre : Reach (init n p) s) (hc : s.coord = .sendCascade) :
    (p = false → ∀ s', Reach s s' →
      s'.coord = .sendCascade ∧ s'.consumed = s.consumed) ∧
    (s.fwd = some .done → s.exited = false →
      Step s (stCascadeError s) ∧
      ∀ s', Reach (stCascadeError s) s' →
        s'.coord = .panicked ∧ s'.consumed = s.consumed) := by
  have hI := inv_of_reach hre
  constructor
  · intro hp s' hr'
    subst hp
    exact cascadeStuck_nonPrimary hI hc hr'
  · intro hf he
    refine ⟨⟨he, .cascadeError s hc (Or.inl hf)⟩, ?_⟩
    intro s' hr'
    have H := coordPanicked_frozen hr' (show (stCascadeError s).coord = .panicked from rfl)
    exact ⟨H.1, H.2⟩

/-- One more environment step from the blocked-cascade state of trace A:
child 1 exits on its own. -/
def a5 : State := stChildExits a4 1 (ch a4 1)

theorem stepA5 : Step a4 a5 :=
  ⟨rfl, .childExits a4 1 (ch a4 1) (by decide) (by decide) (by decide)⟩

/-- Witness for C9's amended theorem on the non-pid1 trace A: the blocked
cascade send persists across a further step. -/
theorem c9_witness : a5.coord = CoordPC.sendCascade ∧ a5.consumed = a4.consumed :=
  (c9_cascade_block_or_panic 2 false a4 reach_a4 rfl).1 rfl a5
    (Reach.single stepA5)

/-! ### Claim C10 -/

/-- C10: with an empty processes table the coordinator blocks forever in
`exit_rx.recv()` — in every reachable state it is still at that receive, the
supervisor process has not exited (and in particular the completion line,
printed only on the path to the coordinator's `done` state, is never
printed), and no exit notification is ever consumed. -/
theorem c10_empty_config_never_terminates (p : Bool) (s : State)
    (hre : Reach (init 0 p) s) :
    s.coord = CoordPC.waitExit ∧ s.exited = false ∧ s.consumed = 0 :=
  emptyConfig_stuck hre

/-- Witness for C10 at the initial empty-configuration state. -/
theorem c10_witness :
    (init 0 true).coord = CoordPC.waitExit ∧ (init 0 true).exited = false ∧
      (init 0 true).consumed = 0 :=
  c10_empty_config_never_terminates true (init 0 true) Reach.refl

end SpotInit
